import Mathlib

/-!
# message-board: the signed token scheme of `utils/jwt.go`

A shallow embedding of `GenerateTokenPair`, `generateByClaims`, `signJWT` and
`AuthorizeJWT`, together with executable models of the Go standard library
routines they call (`crypto/hmac` with `crypto/sha256`, `encoding/hex`,
`encoding/base64`, `encoding/json` restricted to the `Claims` struct,
`strings.Split` and the regular expression that counts the dots).

Go strings and byte slices are lists of bytes.  `int64` values are integers,
and every `int64` operation of the source is written with an explicit
two's complement wrap (`wrap64`).  The process-wide configuration
(`config.JwtKey`, `config.JwtTimeout`), the package value
`ServerInternalError` and the clock are parameters.

`json.Unmarshal` is modelled in two passes over the payload: a scanner that
cuts it into tokens and rejects what is not JSON, and a decoder that checks
the nesting and fills the four fields of `Claims` from the members of the
outermost object (keys compared without regard to case, later duplicates
overriding earlier ones, unknown keys skipped, `null` leaving a field
untouched, any other mismatch of type or range an error).  A run-time panic
of `AuthorizeJWT` (index out of range) is the result `none`.
-/

namespace MessageBoard

/-! ## Bytes and strings -/

/-- One byte of a Go string. -/
abbrev Byte := Fin 256

/-- A Go `string` or `[]byte`: a finite sequence of bytes. -/
abbrev Str := List Byte

/-- The bytes of an ASCII literal. -/
def ascii (s : String) : Str := s.toList.map (fun c => Fin.ofNat c.toNat)

/-! ## SHA-256 and HMAC (`crypto/sha256`, `crypto/hmac`) -/

/-- Truncation to a 32-bit word. -/
def word32 (x : Nat) : Nat := x % 4294967296

/-- Rotation of a 32-bit word to the right by `n` bits. -/
def rotr32 (n x : Nat) : Nat := word32 ((x >>> n) ||| (x <<< (32 - n)))

/-- The first 64 prime numbers. -/
def firstPrimes : List Nat :=
  [2, 3, 5, 7, 11, 13, 17, 19, 23, 29, 31, 37, 41, 43, 47, 53, 59, 61, 67, 71, 73, 79, 83, 89,
   97, 101, 103, 107, 109, 113, 127, 131, 137, 139, 149, 151, 157, 163, 167, 173, 179, 181,
   191, 193, 197, 199, 211, 223, 227, 229, 233, 239, 241, 251, 257, 263, 269, 271, 277, 281,
   283, 293, 307, 311]

/-- Bisection for the integer cube root: `lo ^ 3 ≤ n < hi ^ 3` throughout. -/
def cubeRootBetween : Nat → Nat → Nat → Nat → Nat
  | 0, lo, _, _ => lo
  | fuel + 1, lo, hi, n =>
    if hi ≤ lo + 1 then lo
    else
      let mid := (lo + hi) / 2
      if mid * mid * mid ≤ n then cubeRootBetween fuel mid hi n
      else cubeRootBetween fuel lo mid n

/-- The integer cube root of a number below `2 ^ 120`. -/
def cubeRoot (n : Nat) : Nat := cubeRootBetween 64 0 1099511627776 n

/-- The 64 round constants of SHA-256: the first 32 bits of the fractional
parts of the cube roots of the first 64 primes. -/
def sha256K : List Nat := firstPrimes.map (fun p => word32 (cubeRoot (p * 2 ^ 96)))

/-- The initial hash value of SHA-256: the first 32 bits of the fractional
parts of the square roots of the first 8 primes. -/
def sha256Init : List Nat := (firstPrimes.take 8).map (fun p => word32 (Nat.sqrt (p * 2 ^ 64)))

/-- The `n` low-order bytes of `x`, most significant first. -/
def beBytes : Nat → Nat → Str
  | 0, _ => []
  | n + 1, x => Fin.ofNat (x / 256 ^ n) :: beBytes n x

/-- SHA-256 padding: a one bit, zeros up to 56 modulo 64, the bit length on 8 bytes. -/
def sha256Pad (msg : Str) : Str :=
  msg ++ [128] ++ List.replicate ((119 - msg.length % 64) % 64) 0 ++ beBytes 8 (8 * msg.length)

/-- Big-endian 32-bit words of a byte sequence whose length is a multiple of four. -/
def beWords : Str → List Nat
  | a :: b :: c :: d :: rest =>
    (((a.val * 256 + b.val) * 256 + c.val) * 256 + d.val) :: beWords rest
  | _ => []

/-- Message schedule: `w` holds the words computed so far, the most recent first;
`n` more words are added. -/
def sha256Extend : Nat → List Nat → List Nat
  | 0, w => w
  | n + 1, w =>
    let w2 := w.getD 1 0
    let w7 := w.getD 6 0
    let w15 := w.getD 14 0
    let w16 := w.getD 15 0
    let s0 := rotr32 7 w15 ^^^ rotr32 18 w15 ^^^ (w15 >>> 3)
    let s1 := rotr32 17 w2 ^^^ rotr32 19 w2 ^^^ (w2 >>> 10)
    sha256Extend n (word32 (w16 + s0 + w7 + s1) :: w)

/-- One round of the compression function on the working variables `a..h`,
with round constant `kw.1` and schedule word `kw.2`. -/
def sha256Round (st : List Nat) (kw : Nat × Nat) : List Nat :=
  match st with
  | [a, b, c, d, e, f, g, h] =>
    let s1 := rotr32 6 e ^^^ rotr32 11 e ^^^ rotr32 25 e
    let ch := (e &&& f) ^^^ ((4294967295 - e) &&& g)
    let t1 := h + s1 + ch + kw.1 + kw.2
    let s0 := rotr32 2 a ^^^ rotr32 13 a ^^^ rotr32 22 a
    let maj := (a &&& b) ^^^ (a &&& c) ^^^ (b &&& c)
    [word32 (t1 + s0 + maj), a, b, c, word32 (d + t1), e, f, g]
  | _ => st

/-- The compression function: one 16-word block folded into the hash value. -/
def sha256Block (h : List Nat) (block : List Nat) : List Nat :=
  let w := (sha256Extend 48 block.reverse).reverse
  List.zipWith (fun x y => word32 (x + y)) h ((sha256K.zip w).foldl sha256Round h)

/-- The compression function over `n` consecutive blocks. -/
def sha256Blocks : Nat → List Nat → List Nat → List Nat
  | 0, h, _ => h
  | n + 1, h, ws => sha256Blocks n (sha256Block h (ws.take 16)) (ws.drop 16)

/-- The SHA-256 digest (32 bytes) of a message. -/
def sha256 (msg : Str) : Str :=
  let ws := beWords (sha256Pad msg)
  (sha256Blocks (ws.length / 16) sha256Init ws).flatMap (beBytes 4)

/-- HMAC with SHA-256: `hmac.New(sha256.New, key)`, `Write(msg)`, `Sum(nil)`. -/
def hmacSHA256 (key msg : Str) : Str :=
  let k0 := if key.length > 64 then sha256 key else key
  let k := k0 ++ List.replicate (64 - k0.length) 0
  let ipad : Str := k.map (fun b => Fin.ofNat (b.val ^^^ 0x36))
  let opad : Str := k.map (fun b => Fin.ofNat (b.val ^^^ 0x5c))
  sha256 (opad ++ sha256 (ipad ++ msg))

/-! ## Hexadecimal and base64 (`encoding/hex`, `encoding/base64`) -/

/-- The table `0123456789abcdef` of `encoding/hex`. -/
def hexTable : Str := [48, 49, 50, 51, 52, 53, 54, 55, 56, 57, 97, 98, 99, 100, 101, 102]

/-- The function `hex.EncodeToString`: two lower-case digits per byte. -/
def hexEncode (s : Str) : Str :=
  s.flatMap (fun b => [hexTable.getD (b.val / 16) 0, hexTable.getD (b.val % 16) 0])

/-- The alphabet of `base64.StdEncoding`: `A-Z`, `a-z`, `0-9`, `+`, `/`. -/
def base64Alphabet : Str :=
  [65, 66, 67, 68, 69, 70, 71, 72, 73, 74, 75, 76, 77, 78, 79, 80, 81, 82, 83, 84, 85, 86, 87,
   88, 89, 90, 97, 98, 99, 100, 101, 102, 103, 104, 105, 106, 107, 108, 109, 110, 111, 112, 113,
   114, 115, 116, 117, 118, 119, 120, 121, 122, 48, 49, 50, 51, 52, 53, 54, 55, 56, 57, 43, 47]

/-- The character that encodes the six-bit value `n`. -/
def base64Char (n : Nat) : Byte := base64Alphabet.getD n 0

/-- The decode map of `base64.StdEncoding`: the six-bit value of an alphabet
character, `none` for every other byte. -/
def base64Index (c : Byte) : Option Nat :=
  let i := base64Alphabet.indexOf c
  if i < 64 then some i else none

/-- The function `base64.StdEncoding.EncodeToString`: three bytes give four
characters, a final group of one or two bytes is padded with `=`. -/
def base64Encode : Str → Str
  | a :: b :: c :: rest =>
    let v := a.val * 65536 + b.val * 256 + c.val
    base64Char (v / 262144 % 64) :: base64Char (v / 4096 % 64) :: base64Char (v / 64 % 64) ::
      base64Char (v % 64) :: base64Encode rest
  | [a, b] =>
    let v := a.val * 65536 + b.val * 256
    [base64Char (v / 262144 % 64), base64Char (v / 4096 % 64), base64Char (v / 64 % 64), 61]
  | [a] =>
    let v := a.val * 65536
    [base64Char (v / 262144 % 64), base64Char (v / 4096 % 64), 61, 61]
  | [] => []

/-- Skips the line breaks that the base64 decoder ignores. -/
def skipNewlines : Str → Str
  | [] => []
  | c :: r => if c = 10 ∨ c = 13 then skipNewlines r else c :: r

/-- The bytes of one quantum: `dbuf` holds the `dlen` six-bit values read
(2 to 4); `dlen - 1` bytes come out. -/
def quantumBytes (dbuf : List Nat) : Str :=
  let val := dbuf.getD 0 0 * 262144 + dbuf.getD 1 0 * 4096 + dbuf.getD 2 0 * 64 + dbuf.getD 3 0
  ([Fin.ofNat (val / 65536), Fin.ofNat (val / 256), Fin.ofNat val] : Str).take (dbuf.length - 1)

/-- The decoding loop of `base64.StdEncoding.Decode` (non-strict, padded):
`dbuf` is the content of the quantum being read.  The result is the bytes
written before the first corrupt position and whether an error is reported;
as in Go, the bytes written so far are returned with the error. -/
def base64DecodeFrom : List Nat → Str → Str × Bool
  | dbuf, [] => ([], decide (dbuf.length ≠ 0))
  | dbuf, c :: r =>
    match base64Index c with
    | some v =>
      if dbuf.length = 3 then
        let tail := base64DecodeFrom [] r
        (quantumBytes (dbuf ++ [v]) ++ tail.1, tail.2)
      else base64DecodeFrom (dbuf ++ [v]) r
    | none =>
      if c = 10 ∨ c = 13 then base64DecodeFrom dbuf r
      else if c ≠ 61 then ([], true)
      else if dbuf.length < 2 then ([], true)
      else if dbuf.length = 2 then
        match skipNewlines r with
        | [] => ([], true)
        | c2 :: r2 =>
          if c2 ≠ 61 then ([], true)
          else (quantumBytes dbuf, decide (skipNewlines r2 ≠ []))
      else (quantumBytes dbuf, decide (skipNewlines r ≠ []))

/-- The function `base64.StdEncoding.DecodeString`: decoded bytes and error flag. -/
def base64Decode (s : Str) : Str × Bool := base64DecodeFrom [] s

/-! ## `strings.Split` and the dot count -/

/-- The byte `.`. -/
def dot : Byte := 46

/-- The call `strings.Split(s, ".")`: the pieces between the dots, one more
than there are dots. -/
def splitDot : Str → List Str
  | [] => [[]]
  | c :: r =>
    if c = dot then [] :: splitDot r
    else
      match splitDot r with
      | [] => [[c]]
      | p :: ps => (c :: p) :: ps

/-- The call `regexp.MustCompile("\\.").FindAllString(s, -1)`: one match per dot. -/
def findAllDots (s : Str) : List Str := (s.filter (fun c => c = dot)).map (fun c => [c])

/-! ## 64-bit integers -/

/-- The range of `int64`. -/
def IsInt64 (x : Int) : Prop := -9223372036854775808 ≤ x ∧ x ≤ 9223372036854775807

instance (x : Int) : Decidable (IsInt64 x) := by unfold IsInt64; infer_instance

/-- Two's complement reduction of an integer to `int64`. -/
def wrap64 (x : Int) : Int := (x + 9223372036854775808) % 18446744073709551616 - 9223372036854775808

/-- The `int64` subtraction of Go. -/
def sub64 (a b : Int) : Int := wrap64 (a - b)

/-- The `int64` multiplication of Go. -/
def mul64 (a b : Int) : Int := wrap64 (a * b)

/-! ## The claims and their JSON form (`encoding/json`) -/

/-- The struct `Claims`; the field `Kind` is the field `Type` of the source
(JSON name `is_access_token`), of the boolean type `TokenType`. -/
structure Claims where
  InterArrivalTime : Int
  ExpirationDate : Int
  Uid : Int
  Kind : Bool
deriving DecidableEq, Repr

/-- The constant `AccessTokenType`. -/
def AccessTokenType : Bool := true

/-- The constant `RefreshTokenType`. -/
def RefreshTokenType : Bool := false

/-- The constant `HeaderPlain`. -/
def HeaderPlain : Str := ascii "\x7b\"alg\":\"HS256\",\"typ\":\"JWT\"\x7d"

/-- Decimal digits of `n` put in front of `acc`; `fuel` bounds the number of digits. -/
def decimalFrom : Nat → Nat → Str → Str
  | 0, _, acc => acc
  | fuel + 1, n, acc =>
    if n < 10 then Fin.ofNat (48 + n) :: acc
    else decimalFrom fuel (n / 10) (Fin.ofNat (48 + n % 10) :: acc)

/-- The decimal form of a natural number. -/
def formatNat (n : Nat) : Str := decimalFrom (n + 1) n []

/-- The decimal form of an integer (`strconv.AppendInt(dst, i, 10)`). -/
def formatInt (i : Int) : Str := if i < 0 then 45 :: formatNat i.natAbs else formatNat i.natAbs

/-- The call `json.Marshal(claims)`: the four fields in declaration order,
without white space.  Marshalling a struct of integers and a boolean has no
error case, so the result is always `some`. -/
def jsonMarshalClaims (c : Claims) : Option Str :=
  some (ascii "\x7b\"iat\":" ++ formatInt c.InterArrivalTime ++
    ascii ",\"exp\":" ++ formatInt c.ExpirationDate ++
    ascii ",\"uid\":" ++ formatInt c.Uid ++
    ascii ",\"is_access_token\":" ++ (if c.Kind then ascii "true" else ascii "false") ++
    ascii "\x7d")

/-- The lexical elements of a JSON text. -/
inductive Token where
  | lbrace | rbrace | lbrack | rbrack | colon | comma
  | string (raw : Str)
  | number (lit : Str)
  | litTrue | litFalse | litNull
deriving DecidableEq, Repr

/-- What the scanner is in the middle of: nothing, a string (`buf` is the
raw content read so far), an escape, the hex digits of a `\u` escape (`k` are
still due), a number, or a literal word. -/
inductive LexMode where
  | idle
  | str (buf : Str)
  | esc (buf : Str)
  | hex (buf : Str) (k : Nat)
  | num (buf : Str)
  | word (buf : Str)
deriving DecidableEq, Repr

/-- What a byte means where a new lexical element may start. -/
inductive Start where
  | skip
  | emit (t : Token)
  | enter (m : LexMode)
  | bad
deriving DecidableEq, Repr

/-- Decimal digit. -/
def isDigit (c : Byte) : Bool := decide (48 ≤ c.val ∧ c.val ≤ 57)

/-- Hexadecimal digit of either case. -/
def isHexDigit (c : Byte) : Bool :=
  isDigit c || decide (97 ≤ c.val ∧ c.val ≤ 102) || decide (65 ≤ c.val ∧ c.val ≤ 70)

/-- The bytes a JSON number is made of: digits, signs, the point, `e` and `E`. -/
def isNumberChar (c : Byte) : Bool :=
  isDigit c || decide (c = 45) || decide (c = 43) || decide (c = 46) || decide (c = 101) ||
    decide (c = 69)

/-- Lower-case letter. -/
def isLower (c : Byte) : Bool := decide (97 ≤ c.val ∧ c.val ≤ 122)

/-- Drops the leading digits. -/
def dropDigits : Str → Str
  | [] => []
  | c :: r => if isDigit c then dropDigits r else c :: r

/-- The exponent part of a number, or nothing. -/
def validExponent : Str → Bool
  | [] => true
  | e :: r =>
    decide (e = 101 ∨ e = 69) &&
      (match r with
        | [] => false
        | s :: r2 =>
          if s = 43 ∨ s = 45 then
            (match r2 with
              | [] => false
              | d :: r3 => isDigit d && decide (dropDigits r3 = []))
          else isDigit s && decide (dropDigits r2 = []))

/-- The fraction and exponent parts of a number, or nothing. -/
def validFraction : Str → Bool
  | [] => true
  | c :: r =>
    if c = 46 then
      (match r with
        | [] => false
        | d :: r2 => isDigit d && validExponent (dropDigits r2))
    else validExponent (c :: r)

/-- The JSON number grammar: `-? (0 | [1-9][0-9]*) (. [0-9]+)? ([eE] [+-]? [0-9]+)?`. -/
def validNumber (lit : Str) : Bool :=
  let body := match lit with
    | [] => []
    | c :: r => if c = 45 then r else c :: r
  match body with
  | [] => false
  | c :: r =>
    if c = 48 then validFraction r
    else isDigit c && validFraction (dropDigits r)

/-- The token of a completed number, if it is one. -/
def numberToken (buf : Str) : Option Token :=
  if validNumber buf then some (Token.number buf) else none

/-- The token of a completed word: `true`, `false` or `null`. -/
def wordToken (buf : Str) : Option Token :=
  if buf = ascii "true" then some Token.litTrue
  else if buf = ascii "false" then some Token.litFalse
  else if buf = ascii "null" then some Token.litNull
  else none

/-- Puts a token in front of the tokens that follow; an error on either side is an error. -/
def consToken (t : Option Token) (rest : Option (List Token)) : Option (List Token) :=
  match t, rest with
  | some t, some ts => some (t :: ts)
  | _, _ => none

/-- The meaning of a byte between lexical elements. -/
def classify (c : Byte) : Start :=
  if c = 32 ∨ c = 9 ∨ c = 10 ∨ c = 13 then Start.skip
  else if c = 123 then Start.emit Token.lbrace
  else if c = 125 then Start.emit Token.rbrace
  else if c = 91 then Start.emit Token.lbrack
  else if c = 93 then Start.emit Token.rbrack
  else if c = 58 then Start.emit Token.colon
  else if c = 44 then Start.emit Token.comma
  else if c = 34 then Start.enter (LexMode.str [])
  else if c = 45 ∨ isDigit c then Start.enter (LexMode.num [c])
  else if isLower c then Start.enter (LexMode.word [c])
  else Start.bad

/-- Continues after a byte read between lexical elements; `next m` scans the
rest of the input in mode `m`. -/
def dispatch (c : Byte) (next : LexMode → Option (List Token)) : Option (List Token) :=
  match classify c with
  | Start.skip => next LexMode.idle
  | Start.emit t => consToken (some t) (next LexMode.idle)
  | Start.enter m => next m
  | Start.bad => none

/-- The JSON scanner: the tokens of the input, `none` when the input is not
made of well-formed tokens (control character or bad escape in a string,
unterminated string, malformed number, unknown word, stray byte). -/
def lexFrom : LexMode → Str → Option (List Token)
  | LexMode.idle, [] => some []
  | LexMode.idle, c :: r => dispatch c (fun m => lexFrom m r)
  | LexMode.str _, [] => none
  | LexMode.str buf, c :: r =>
    if c = 34 then consToken (some (Token.string buf)) (lexFrom LexMode.idle r)
    else if c = 92 then lexFrom (LexMode.esc buf) r
    else if c.val < 32 then none
    else lexFrom (LexMode.str (buf ++ [c])) r
  | LexMode.esc _, [] => none
  | LexMode.esc buf, c :: r =>
    if c = 34 ∨ c = 92 ∨ c = 47 ∨ c = 98 ∨ c = 102 ∨ c = 110 ∨ c = 114 ∨ c = 116 then
      lexFrom (LexMode.str (buf ++ [92, c])) r
    else if c = 117 then lexFrom (LexMode.hex (buf ++ [92, 117]) 4) r
    else none
  | LexMode.hex _ _, [] => none
  | LexMode.hex buf k, c :: r =>
    if isHexDigit c then
      (if k ≤ 1 then lexFrom (LexMode.str (buf ++ [c])) r
       else lexFrom (LexMode.hex (buf ++ [c]) (k - 1)) r)
    else none
  | LexMode.num buf, [] => consToken (numberToken buf) (some [])
  | LexMode.num buf, c :: r =>
    if isNumberChar c then lexFrom (LexMode.num (buf ++ [c])) r
    else consToken (numberToken buf) (dispatch c (fun m => lexFrom m r))
  | LexMode.word buf, [] => consToken (wordToken buf) (some [])
  | LexMode.word buf, c :: r =>
    if isLower c then lexFrom (LexMode.word (buf ++ [c])) r
    else consToken (wordToken buf) (dispatch c (fun m => lexFrom m r))

/-- The value of a hexadecimal digit. -/
def hexValue (c : Byte) : Nat :=
  if isDigit c then c.val - 48
  else if 97 ≤ c.val then c.val - 87
  else c.val - 55

/-- The UTF-8 encoding of a code point (`utf8.EncodeRune`); surrogates and
values out of range become U+FFFD. -/
def encodeRune (r : Nat) : Str :=
  if r < 128 then [Fin.ofNat r]
  else if r < 2048 then [Fin.ofNat (192 + r / 64), Fin.ofNat (128 + r % 64)]
  else if (55296 ≤ r ∧ r < 57344) ∨ 1114112 ≤ r then [239, 191, 189]
  else if r < 65536 then
    [Fin.ofNat (224 + r / 4096), Fin.ofNat (128 + r / 64 % 64), Fin.ofNat (128 + r % 64)]
  else
    [Fin.ofNat (240 + r / 262144), Fin.ofNat (128 + r / 4096 % 64),
     Fin.ofNat (128 + r / 64 % 64), Fin.ofNat (128 + r % 64)]

/-- The byte a one-letter escape stands for. -/
def escapeByte (c : Byte) : Byte :=
  if c = 98 then 8
  else if c = 102 then 12
  else if c = 110 then 10
  else if c = 114 then 13
  else if c = 116 then 9
  else c

/-- The second half of a surrogate pair at the head of `s`, as `\uXXXX`, with
the input that follows it. -/
def lowSurrogate (s : Str) : Option (Nat × Str) :=
  match s with
  | b :: u :: h1 :: h2 :: h3 :: h4 :: rest =>
    let v := ((hexValue h1 * 16 + hexValue h2) * 16 + hexValue h3) * 16 + hexValue h4
    if b = 92 ∧ u = 117 ∧ 56320 ≤ v ∧ v < 57344 then some (v, rest) else none
  | _ => none

/-- The content of a string token with its escapes resolved (`unquote` of
`encoding/json`); every step consumes input, so a `fuel` of the length of the
input is enough.  Bytes from 128 on are copied as they are, where Go
replaces ill-formed UTF-8 by U+FFFD; a key with such a byte, in either form,
is not the name of a field of `Claims`. -/
def unquote : Nat → Str → Str
  | 0, _ => []
  | _ + 1, [] => []
  | fuel + 1, c :: r =>
    if c = 92 then
      (match r with
        | [] => []
        | e :: r2 =>
          if e = 117 then
            (match r2 with
              | h1 :: h2 :: h3 :: h4 :: r3 =>
                let v := ((hexValue h1 * 16 + hexValue h2) * 16 + hexValue h3) * 16 + hexValue h4
                if 55296 ≤ v ∧ v < 56320 then
                  (match lowSurrogate r3 with
                    | some (w, r4) =>
                      encodeRune (65536 + (v - 55296) * 1024 + (w - 56320)) ++ unquote fuel r4
                    | none => encodeRune v ++ unquote fuel r3)
                else encodeRune v ++ unquote fuel r3
              | _ => [])
          else escapeByte e :: unquote fuel r2)
    else c :: unquote fuel r

/-- Upper case of an ASCII letter, other bytes unchanged. -/
def upperByte (c : Byte) : Byte := if isLower c then Fin.ofNat (c.val - 32) else c

/-- Case folding of a key (`foldName` of `encoding/json`): ASCII letters in
upper case, the long s (U+017F) as `S` and the Kelvin sign (U+212A) as `K`;
a `fuel` of the length of the key is enough. -/
def foldKey : Nat → Str → Str
  | 0, _ => []
  | _ + 1, [] => []
  | fuel + 1, c :: r =>
    match r with
    | [] => [upperByte c]
    | c2 :: r2 =>
      if c = 197 ∧ c2 = 191 then 83 :: foldKey fuel r2
      else
        match r2 with
        | [] => upperByte c :: foldKey fuel r
        | c3 :: r3 =>
          if c = 226 ∧ c2 = 132 ∧ c3 = 170 then 75 :: foldKey fuel r3
          else upperByte c :: foldKey fuel r

/-- The fields of `Claims`, by JSON name. -/
inductive Field where
  | iat | exp | uid | isAccessToken
deriving DecidableEq, Repr

/-- The field a key of the JSON object selects: the names are compared
without regard to case. -/
def selectField (raw : Str) : Option Field :=
  let key := unquote raw.length raw
  let k := foldKey key.length key
  if k = ascii "IAT" then some Field.iat
  else if k = ascii "EXP" then some Field.exp
  else if k = ascii "UID" then some Field.uid
  else if k = ascii "IS_ACCESS_TOKEN" then some Field.isAccessToken
  else none

/-- The value of a sequence of decimal digits, continuing from `acc`. -/
def digitsValue : Str → Nat → Option Nat
  | [], acc => some acc
  | c :: r, acc => if isDigit c then digitsValue r (acc * 10 + (c.val - 48)) else none

/-- The call `strconv.ParseInt(lit, 10, 64)`: an optional sign, decimal
digits, and a value in the range of `int64`. -/
def parseInt64 (lit : Str) : Option Int :=
  let signed : Bool × Str := match lit with
    | [] => (false, [])
    | c :: r => if c = 45 then (true, r) else if c = 43 then (false, r) else (false, c :: r)
  match signed.2 with
  | [] => none
  | d :: ds =>
    match digitsValue (d :: ds) 0 with
    | none => none
    | some n =>
      let v : Int := if signed.1 then -(n : Int) else (n : Int)
      if IsInt64 v then some v else none

/-- What the decoder expects next. -/
inductive Expect where
  | value | valueOrEnd | keyOrEnd | key | colon | commaOrEnd | done
deriving DecidableEq, Repr

/-- The state of `json.Unmarshal(data, &claims)` between two tokens: the open
containers (innermost first, `true` for an object), what must come next, the
field selected by the last key of the outermost object, the struct being
filled, and whether a value did not fit its field. -/
structure Decoder where
  stack : List Bool
  expect : Expect
  field : Option Field
  claims : Claims
  typeError : Bool
deriving DecidableEq, Repr

/-- Stores a scalar token into a field of the struct.  `null` leaves the
field as it is; a number that is not a decimal `int64`, or a value of another
JSON type, is a type error. -/
def storeField (f : Field) (t : Token) (d : Decoder) : Decoder :=
  match t with
  | Token.litNull => d
  | Token.litTrue =>
    if f = Field.isAccessToken then { d with claims := { d.claims with Kind := true } }
    else { d with typeError := true }
  | Token.litFalse =>
    if f = Field.isAccessToken then { d with claims := { d.claims with Kind := false } }
    else { d with typeError := true }
  | Token.number lit =>
    (match f, parseInt64 lit with
      | Field.iat, some v => { d with claims := { d.claims with InterArrivalTime := v } }
      | Field.exp, some v => { d with claims := { d.claims with ExpirationDate := v } }
      | Field.uid, some v => { d with claims := { d.claims with Uid := v } }
      | _, _ => { d with typeError := true })
  | _ => { d with typeError := true }

/-- A scalar value at the current position: the whole document (only `null`
can be stored into a struct), a member of the outermost object, or something
nested, which is skipped. -/
def storeValue (d : Decoder) (t : Token) : Decoder :=
  match d.stack with
  | [] => if t = Token.litNull then d else { d with typeError := true }
  | [true] =>
    (match d.field with
      | none => d
      | some f => storeField f t d)
  | _ => d

/-- What follows a completed value. -/
def afterValue (stack : List Bool) : Expect :=
  if stack = [] then Expect.done else Expect.commaOrEnd

/-- Opens an object or an array.  More than 10000 open containers is an
error; an array as the document, or a container as the value of a field of
`Claims`, is a type error. -/
def beginNested (d : Decoder) (isObject : Bool) : Option Decoder :=
  if 10000 ≤ d.stack.length then none
  else
    let bad : Bool := match d.stack with
      | [] => !isObject
      | [true] => d.field.isSome
      | _ => false
    some { d with
      stack := isObject :: d.stack
      expect := if isObject then Expect.keyOrEnd else Expect.valueOrEnd
      typeError := d.typeError || bad }

/-- Closes the innermost container. -/
def closeNested (d : Decoder) : Option Decoder :=
  match d.stack with
  | [] => none
  | _ :: rest => some { d with stack := rest, expect := afterValue rest }

/-- A token where a value must start. -/
def startValue (d : Decoder) (t : Token) : Option Decoder :=
  match t with
  | Token.lbrace => beginNested d true
  | Token.lbrack => beginNested d false
  | Token.rbrace => none
  | Token.rbrack => none
  | Token.colon => none
  | Token.comma => none
  | _ => some { storeValue d t with expect := afterValue d.stack }

/-- A token where the key of an object member must stand. -/
def readKey (d : Decoder) (t : Token) : Option Decoder :=
  match t with
  | Token.string raw =>
    some { d with
      expect := Expect.colon
      field := if d.stack = [true] then selectField raw else d.field }
  | _ => none

/-- One step of the decoder; `none` is a syntax error. -/
def decodeStep (d : Decoder) (t : Token) : Option Decoder :=
  match d.expect with
  | Expect.value => startValue d t
  | Expect.valueOrEnd => if t = Token.rbrack then closeNested d else startValue d t
  | Expect.keyOrEnd => if t = Token.rbrace then closeNested d else readKey d t
  | Expect.key => readKey d t
  | Expect.colon => if t = Token.colon then some { d with expect := Expect.value } else none
  | Expect.commaOrEnd =>
    (match d.stack with
      | [] => none
      | isObject :: _ =>
        if t = Token.comma then
          some { d with expect := if isObject then Expect.key else Expect.value }
        else if (t = Token.rbrace ∧ isObject = true) ∨ (t = Token.rbrack ∧ isObject = false) then
          closeNested d
        else none)
  | Expect.done => none

/-- The decoder run over a list of tokens. -/
def decodeTokens : Decoder → List Token → Option Decoder
  | d, [] => some d
  | d, t :: ts =>
    match decodeStep d t with
    | none => none
    | some d2 => decodeTokens d2 ts

/-- The call `json.Unmarshal(payload, &claims)` on `claims := Claims{}`: the
struct on success, `none` when Go returns an error (a syntax error anywhere in
the input, or a value that does not fit its field). -/
def jsonUnmarshalClaims (data : Str) : Option Claims :=
  match lexFrom LexMode.idle data with
  | none => none
  | some toks =>
    match decodeTokens ⟨[], Expect.value, none, ⟨0, 0, 0, false⟩, false⟩ toks with
    | none => none
    | some d => if d.expect = Expect.done ∧ d.typeError = false then some d.claims else none

/-! ## The program: `utils/jwt.go` -/

/-- The struct `ServerError`. -/
structure ServerError where
  HttpStatus : Int
  Status : Int
  Info : String
  Detail : String
deriving DecidableEq, Repr

/-- The configuration and package values the file reads but does not declare:
`config.JwtKey`, `config.JwtTimeout` and `ServerInternalError`. -/
structure Config where
  JwtKey : Str
  JwtTimeout : Int
  ServerInternalError : ServerError

/-- The function `signJWT`. -/
def signJWT (cfg : Config) (header payload : Str) : Str :=
  let hash := hmacSHA256 cfg.JwtKey (header ++ payload)
  let signed := base64Encode (hexEncode hash)
  header ++ [dot] ++ payload ++ [dot] ++ signed

/-- The function `generateByClaims`: the token and the error (`none` is `nil`). -/
def generateByClaims (cfg : Config) (claims : Claims) : Str × Option ServerError :=
  match jsonMarshalClaims claims with
  | none => ([], some cfg.ServerInternalError)
  | some bytes =>
    let header := base64Encode HeaderPlain
    let payload := base64Encode bytes
    (signJWT cfg header payload, none)

/-- The function `GenerateTokenPair`, with the clock reading `now` of
`time.Now().Unix()`: access token, refresh token, error. -/
def GenerateTokenPair (cfg : Config) (now : Int) (uid : Int) : Str × Str × Option ServerError :=
  let accessTokenClaims : Claims :=
    { InterArrivalTime := now, ExpirationDate := cfg.JwtTimeout, Uid := uid,
      Kind := AccessTokenType }
  let refreshTokenClaim : Claims :=
    { InterArrivalTime := now, ExpirationDate := mul64 cfg.JwtTimeout 10, Uid := uid,
      Kind := RefreshTokenType }
  match generateByClaims cfg accessTokenClaims with
  | (_, some _) => ([], [], some cfg.ServerInternalError)
  | (accessToken, none) =>
    match generateByClaims cfg refreshTokenClaim with
    | (_, some _) => ([], [], some cfg.ServerInternalError)
    | (refreshToken, none) => (accessToken, refreshToken, none)

/-- The error returned for a malformed or wrongly signed token. -/
def invalidJwt : ServerError :=
  { HttpStatus := 400, Status := 40002, Info := "invalid jwt", Detail := "JWT 认证错误!" }

/-- The error returned for an expired token. -/
def expiredJwt : ServerError :=
  { HttpStatus := 400, Status := 40003, Info := "invalid jwt", Detail := "JWT 过期!" }

/-- The three results of `AuthorizeJWT`: error (`none` is `nil`), uid, token type. -/
structure AuthResult where
  err : Option ServerError
  uid : Int
  kind : Bool
deriving DecidableEq, Repr

/-- The function `AuthorizeJWT`, with the clock reading `now`.  The outer
`none` is a run-time panic: an index out of range on `parts` or on the pieces
of the recomputed token. -/
def AuthorizeJWT (cfg : Config) (now : Int) (jwtStr : Str) : Option AuthResult :=
  let find := findAllDots jwtStr
  if find.length ≠ 2 then some ⟨some invalidJwt, 0, false⟩
  else
    let parts := splitDot jwtStr
    match parts[1]?, parts[2]?, parts[0]? with
    | some part1, some part2, some part0 =>
      let payload := (base64Decode part1).1
      let signed := part2
      match (splitDot (signJWT cfg part0 part1))[2]? with
      | none => none
      | some dSigned =>
        if signed ≠ dSigned then some ⟨some invalidJwt, 0, false⟩
        else
          match jsonUnmarshalClaims payload with
          | none => some ⟨some cfg.ServerInternalError, 0, false⟩
          | some claims =>
            if claims.ExpirationDate < sub64 now claims.InterArrivalTime then
              some ⟨some expiredJwt, 0, false⟩
            else some ⟨none, claims.Uid, claims.Kind⟩
    | _, _, _ => none

/-! ## Auxiliary notions for the statements -/

/-- All three integer fields are `int64` values. -/
def Claims.InRange (c : Claims) : Prop :=
  IsInt64 c.InterArrivalTime ∧ IsInt64 c.ExpirationDate ∧ IsInt64 c.Uid

/-- The claims embedded in a token: its second segment, decoded and
deserialised the way `AuthorizeJWT` does it (`strings.Split`, then
`base64.StdEncoding.DecodeString` with the error dropped, then
`json.Unmarshal` into an empty `Claims`). -/
def tokenClaims (token : Str) : Option Claims :=
  match (splitDot token)[1]? with
  | none => none
  | some part1 => jsonUnmarshalClaims (base64Decode part1).1

/-- A configuration with a one hour access window, for concrete instances. -/
def sampleConfig : Config :=
  { JwtKey := ascii "secret", JwtTimeout := 3600,
    ServerInternalError :=
      { HttpStatus := 500, Status := 50000, Info := "internal error", Detail := "" } }

/-- A configuration whose access window is `2^62` seconds. -/
def wideConfig : Config :=
  { JwtKey := ascii "secret", JwtTimeout := 4611686018427387904,
    ServerInternalError :=
      { HttpStatus := 500, Status := 50000, Info := "internal error", Detail := "" } }

/-! ## Issuance with the outcome of `json.Marshal` left open -/

/-- The function `generateByClaims` where `marshal` stands for `json.Marshal`
and may fail (`none`): the error branch of the source is then reachable. -/
def generateByClaimsWith (marshal : Claims → Option Str) (cfg : Config) (claims : Claims) :
    Str × Option ServerError :=
  match marshal claims with
  | none => ([], some cfg.ServerInternalError)
  | some bytes =>
    let header := base64Encode HeaderPlain
    let payload := base64Encode bytes
    (signJWT cfg header payload, none)

/-- The function `GenerateTokenPair` over `generateByClaimsWith`. -/
def GenerateTokenPairWith (marshal : Claims → Option Str) (cfg : Config) (now : Int)
    (uid : Int) : Str × Str × Option ServerError :=
  let accessTokenClaims : Claims :=
    { InterArrivalTime := now, ExpirationDate := cfg.JwtTimeout, Uid := uid,
      Kind := AccessTokenType }
  let refreshTokenClaim : Claims :=
    { InterArrivalTime := now, ExpirationDate := mul64 cfg.JwtTimeout 10, Uid := uid,
      Kind := RefreshTokenType }
  match generateByClaimsWith marshal cfg accessTokenClaims with
  | (_, some _) => ([], [], some cfg.ServerInternalError)
  | (accessToken, none) =>
    match generateByClaimsWith marshal cfg refreshTokenClaim with
    | (_, some _) => ([], [], some cfg.ServerInternalError)
    | (refreshToken, none) => (accessToken, refreshToken, none)

/-! ## The controller: `controller/user.go` -/

/-- The anonymous struct that `CtrlUserRegister` puts into `Data`. -/
structure RegisterData where
  AccessToken : Str
  RefreshToken : Str
  Uid : Int
deriving DecidableEq, Repr

/-- The struct `utils.RespData`, declared outside the given sources, with the
fields that `CtrlUserRegister` sets; `Data` is an interface value, `none`
when it is `nil`. -/
structure RespData where
  HttpStatus : Int
  Status : Int
  Info : String
  Data : Option RegisterData
deriving DecidableEq, Repr

/-- The zero value `utils.RespData{}`. -/
def RespData.zero : RespData := { HttpStatus := 0, Status := 0, Info := "", Data := none }

/-- The function `CtrlUserRegister`.  The service `service.RegisterAccount`
and the constant `utils.InfoSuccess` are declared outside the given sources
and are parameters; `E` is the type of the errors of the service, `none` is
`nil`.  The local `uid` is declared and never assigned. -/
def CtrlUserRegister {E : Type} (RegisterAccount : Str → Str → Str → Option E × Str × Str)
    (InfoSuccess : String) (name email password : Str) : Option E × RespData :=
  let uid : Int := 0
  match RegisterAccount name email password with
  | (some err, _, _) => (some err, RespData.zero)
  | (none, accessToken, refreshToken) =>
    (none,
      { HttpStatus := 200, Status := 20000, Info := InfoSuccess,
        Data := some { AccessToken := accessToken, RefreshToken := refreshToken, Uid := uid } })

/-! # Lemmas -/

/-! ## Splitting on dots -/

theorem findAllDots_length (s : Str) : (findAllDots s).length = s.count dot := by
  simp [findAllDots, List.count, List.countP_eq_length_filter]
  rfl

theorem splitDot_append_dot (l r : Str) (hl : dot ∉ l) :
    splitDot (l ++ dot :: r) = l :: splitDot r := by
  induction l with
  | nil => simp [splitDot]
  | cons c l ih =>
    have hc : c ≠ dot := fun h => hl (by simp [h])
    have hl2 : dot ∉ l := fun h => hl (by simp [h])
    simp [splitDot, hc, ih hl2]

theorem splitDot_of_not_mem (l : Str) (hl : dot ∉ l) : splitDot l = [l] := by
  induction l with
  | nil => simp [splitDot]
  | cons c l ih =>
    have hc : c ≠ dot := fun h => hl (by simp [h])
    have hl2 : dot ∉ l := fun h => hl (by simp [h])
    simp [splitDot, hc, ih hl2]

theorem splitDot_three (h p sg : Str) (hh : dot ∉ h) (hp : dot ∉ p) (hs : dot ∉ sg) :
    splitDot (h ++ dot :: (p ++ dot :: sg)) = [h, p, sg] := by
  rw [splitDot_append_dot h _ hh, splitDot_append_dot p _ hp, splitDot_of_not_mem sg hs]

theorem exists_first_dot (s : Str) (h : dot ∈ s) :
    ∃ l r, dot ∉ l ∧ s = l ++ dot :: r := by
  induction s with
  | nil => simp at h
  | cons c s ih =>
    by_cases hc : c = dot
    · exact ⟨[], s, by simp, by simp [hc]⟩
    · have hs : dot ∈ s := by
        rcases List.mem_cons.mp h with h1 | h1
        · exact absurd h1.symm hc
        · exact h1
      obtain ⟨l, r, hl, hr⟩ := ih hs
      refine ⟨c :: l, r, ?_, by simp [hr]⟩
      intro hm
      rcases List.mem_cons.mp hm with h1 | h1
      · exact hc h1.symm
      · exact hl h1

theorem segments_not_mem (h p sg : Str)
    (hc : (h ++ dot :: (p ++ dot :: sg)).count dot = 2) :
    dot ∉ h ∧ dot ∉ p ∧ dot ∉ sg := by
  simp only [List.count_append, List.count_cons_self] at hc
  refine ⟨?_, ?_, ?_⟩ <;> apply List.count_eq_zero.mp <;> omega

theorem exists_segments (s : Str) (hc : s.count dot = 2) :
    ∃ h p sg, s = h ++ dot :: (p ++ dot :: sg) := by
  have h1 : dot ∈ s := List.count_pos_iff.mp (by omega)
  obtain ⟨h, r, hh, rfl⟩ := exists_first_dot s h1
  have hr : r.count dot = 1 := by
    have := List.count_eq_zero.mpr hh
    simp only [List.count_append, List.count_cons_self] at hc
    omega
  have h2 : dot ∈ r := List.count_pos_iff.mp (by omega)
  obtain ⟨p, sg, _, rfl⟩ := exists_first_dot r h2
  exact ⟨h, p, sg, rfl⟩

/-! ## Base64 -/

theorem base64Char_mem (n : Nat) (hn : n < 64) : base64Char n ∈ base64Alphabet := by
  unfold base64Char
  have hl : n < base64Alphabet.length := by simpa [base64Alphabet] using hn
  rw [List.getD_eq_getElem _ _ hl]
  exact List.getElem_mem hl

theorem base64Index_char (n : Nat) (hn : n < 64) : base64Index (base64Char n) = some n := by
  have key : ∀ m : Fin 64, base64Index (base64Char m.val) = some m.val := by decide
  exact key ⟨n, hn⟩

theorem base64Encode_mem (l : Str) : ∀ c ∈ base64Encode l, c ∈ base64Alphabet ∨ c = 61 := by
  induction l using base64Encode.induct with
  | case1 a b c rest ih =>
    intro x hx
    simp only [base64Encode, List.mem_cons] at hx
    rcases hx with hx | hx | hx | hx | hx
    · exact Or.inl (hx ▸ base64Char_mem _ (Nat.mod_lt _ (by decide)))
    · exact Or.inl (hx ▸ base64Char_mem _ (Nat.mod_lt _ (by decide)))
    · exact Or.inl (hx ▸ base64Char_mem _ (Nat.mod_lt _ (by decide)))
    · exact Or.inl (hx ▸ base64Char_mem _ (Nat.mod_lt _ (by decide)))
    · exact ih x hx
  | case2 a b =>
    intro x hx
    simp only [base64Encode, List.mem_cons, List.mem_singleton, List.not_mem_nil, or_false] at hx
    rcases hx with hx | hx | hx | hx
    · exact Or.inl (hx ▸ base64Char_mem _ (Nat.mod_lt _ (by decide)))
    · exact Or.inl (hx ▸ base64Char_mem _ (Nat.mod_lt _ (by decide)))
    · exact Or.inl (hx ▸ base64Char_mem _ (Nat.mod_lt _ (by decide)))
    · exact Or.inr hx
  | case3 a =>
    intro x hx
    simp only [base64Encode, List.mem_cons, List.mem_singleton, List.not_mem_nil, or_false] at hx
    rcases hx with hx | hx | hx | hx
    · exact Or.inl (hx ▸ base64Char_mem _ (Nat.mod_lt _ (by decide)))
    · exact Or.inl (hx ▸ base64Char_mem _ (Nat.mod_lt _ (by decide)))
    · exact Or.inr hx
    · exact Or.inr hx
  | case4 => simp [base64Encode]

theorem base64Encode_not_mem_dot (l : Str) : dot ∉ base64Encode l := by
  intro h
  rcases base64Encode_mem l dot h with h1 | h1
  · revert h1; decide
  · revert h1; decide


theorem ofNat_val (a : Byte) (n : Nat) (h : n % 256 = a.val) : (Fin.ofNat n : Byte) = a := by
  apply Fin.ext
  simp [Fin.ofNat, h]

theorem quantumBytes_four (a b c : Byte) :
    quantumBytes [(a.val * 65536 + b.val * 256 + c.val) / 262144 % 64,
      (a.val * 65536 + b.val * 256 + c.val) / 4096 % 64,
      (a.val * 65536 + b.val * 256 + c.val) / 64 % 64,
      (a.val * 65536 + b.val * 256 + c.val) % 64] = [a, b, c] := by
  have ha := a.isLt
  have hb := b.isLt
  have hc := c.isLt
  simp only [quantumBytes, List.getD_cons_zero, List.getD_cons_succ, List.length_cons,
    List.length_nil, List.take]
  rw [ofNat_val a _ (by omega), ofNat_val b _ (by omega), ofNat_val c _ (by omega)]

theorem quantumBytes_three (a b : Byte) :
    quantumBytes [(a.val * 65536 + b.val * 256) / 262144 % 64,
      (a.val * 65536 + b.val * 256) / 4096 % 64,
      (a.val * 65536 + b.val * 256) / 64 % 64] = [a, b] := by
  have ha := a.isLt
  have hb := b.isLt
  simp only [quantumBytes, List.getD_cons_zero, List.getD_cons_succ, List.length_cons,
    List.length_nil, List.getD_nil, List.take]
  rw [ofNat_val a _ (by omega), ofNat_val b _ (by omega)]

theorem quantumBytes_two (a : Byte) :
    quantumBytes [(a.val * 65536) / 262144 % 64, (a.val * 65536) / 4096 % 64] = [a] := by
  have ha := a.isLt
  simp only [quantumBytes, List.getD_cons_zero, List.getD_cons_succ, List.length_cons,
    List.length_nil, List.getD_nil, List.take]
  rw [ofNat_val a _ (by omega)]

theorem base64Index_pad : base64Index 61 = none := by decide

theorem base64Decode_encode (l : Str) : base64Decode (base64Encode l) = (l, false) := by
  unfold base64Decode
  induction l using base64Encode.induct with
  | case1 a b c rest ih =>
    simp only [base64Encode, base64DecodeFrom, base64Index_char _ (Nat.mod_lt _ (by decide : 0 < 64))]
    simp [ih, quantumBytes_four]
  | case2 a b =>
    simp only [base64Encode, base64DecodeFrom, base64Index_char _ (Nat.mod_lt _ (by decide : 0 < 64)),
      base64Index_pad]
    simp [quantumBytes_three, skipNewlines]
  | case3 a =>
    simp only [base64Encode, base64DecodeFrom, base64Index_char _ (Nat.mod_lt _ (by decide : 0 < 64)),
      base64Index_pad]
    simp [quantumBytes_two, skipNewlines]
  | case4 => simp [base64Encode, base64DecodeFrom]


/-! ## Decimal numbers -/

theorem digit_isDigit (n : Nat) (hn : n < 10) : isDigit (Fin.ofNat (48 + n) : Byte) = true := by
  have key : ∀ m : Fin 10, isDigit (Fin.ofNat (48 + m.val) : Byte) = true := by decide
  exact key ⟨n, hn⟩

theorem digit_val (n : Nat) (hn : n < 10) : (Fin.ofNat (48 + n) : Byte).val - 48 = n := by
  have key : ∀ m : Fin 10, (Fin.ofNat (48 + m.val) : Byte).val - 48 = m.val := by decide
  exact key ⟨n, hn⟩

theorem digit_eq_zero (n : Nat) (hn : n < 10) (h : (Fin.ofNat (48 + n) : Byte) = 48) : n = 0 := by
  have key : ∀ m : Fin 10, (Fin.ofNat (48 + m.val) : Byte) = 48 → m.val = 0 := by decide
  exact key ⟨n, hn⟩ h

theorem decimalFrom_shape (fuel : Nat) : ∀ (n : Nat) (acc : Str), n < fuel →
    ∃ d ds, decimalFrom fuel n acc = d :: (ds ++ acc) ∧ isDigit d = true ∧
      (∀ c ∈ ds, isDigit c = true) ∧ (d = 48 → n = 0 ∧ ds = []) := by
  induction fuel with
  | zero => intro n acc h; omega
  | succ fuel ih =>
    intro n acc h
    by_cases hn : n < 10
    · refine ⟨Fin.ofNat (48 + n), [], by simp [decimalFrom, hn], digit_isDigit n hn, by simp, ?_⟩
      intro h0
      exact ⟨digit_eq_zero n hn h0, rfl⟩
    · obtain ⟨d, ds, h1, h2, h3, h4⟩ := ih (n / 10) (Fin.ofNat (48 + n % 10) :: acc) (by omega)
      refine ⟨d, ds ++ [Fin.ofNat (48 + n % 10)], by simp [decimalFrom, hn, h1], h2, ?_, ?_⟩
      · intro c hc
        rcases List.mem_append.mp hc with hc | hc
        · exact h3 c hc
        · rw [List.mem_singleton.mp hc]
          exact digit_isDigit _ (Nat.mod_lt _ (by decide))
      · intro h0
        have := (h4 h0).1
        omega

theorem decimalFrom_value (fuel : Nat) : ∀ (n : Nat) (acc : Str), n < fuel →
    digitsValue (decimalFrom fuel n acc) 0 = digitsValue acc n := by
  induction fuel with
  | zero => intro n acc h; omega
  | succ fuel ih =>
    intro n acc h
    by_cases hn : n < 10
    · simp [decimalFrom, hn, digitsValue, digit_isDigit n hn, digit_val n hn]
    · have hm : n % 10 < 10 := Nat.mod_lt _ (by decide)
      simp only [decimalFrom, hn, if_false]
      rw [ih (n / 10) _ (by omega)]
      simp only [digitsValue, digit_isDigit _ hm, digit_val _ hm, if_true]
      congr 1
      omega

theorem formatNat_shape (n : Nat) :
    ∃ d ds, formatNat n = d :: ds ∧ isDigit d = true ∧
      (∀ c ∈ ds, isDigit c = true) ∧ (d = 48 → ds = []) := by
  obtain ⟨d, ds, h1, h2, h3, h4⟩ := decimalFrom_shape (n + 1) n [] (by omega)
  exact ⟨d, ds, by simpa [formatNat] using h1, h2, h3, fun h => (h4 h).2⟩

theorem formatNat_value (n : Nat) : digitsValue (formatNat n) 0 = some n := by
  unfold formatNat
  rw [decimalFrom_value (n + 1) n [] (by omega)]
  rfl

theorem dropDigits_of_digits (ds : Str) (h : ∀ c ∈ ds, isDigit c = true) : dropDigits ds = [] := by
  induction ds with
  | nil => rfl
  | cons c ds ih =>
    simp only [dropDigits, h c (by simp), if_true]
    exact ih (fun x hx => h x (by simp [hx]))

theorem isDigit_ne_minus (d : Byte) (h : isDigit d = true) : d ≠ 45 ∧ d ≠ 43 := by
  constructor <;> (rintro rfl; revert h; decide)

theorem isDigit_numberChar (d : Byte) (h : isDigit d = true) : isNumberChar d = true := by
  simp [isNumberChar, h]

theorem validNumber_digits (d : Byte) (ds : Str) (hd : isDigit d = true)
    (hds : ∀ c ∈ ds, isDigit c = true) (h0 : d = 48 → ds = []) :
    validNumber (d :: ds) = true := by
  have hne := (isDigit_ne_minus d hd).1
  by_cases hz : d = 48
  · have := h0 hz
    subst this
    simp [validNumber, hne, hz, validFraction]
  · simp [validNumber, hne, hz, hd, dropDigits_of_digits ds hds, validFraction]

theorem validNumber_minus (d : Byte) (ds : Str) (hd : isDigit d = true)
    (hds : ∀ c ∈ ds, isDigit c = true) (h0 : d = 48 → ds = []) :
    validNumber (45 :: d :: ds) = true := by
  by_cases hz : d = 48
  · have := h0 hz
    subst this
    simp [validNumber, hz, validFraction]
  · simp [validNumber, hz, hd, dropDigits_of_digits ds hds, validFraction]

theorem formatInt_valid (i : Int) : validNumber (formatInt i) = true := by
  obtain ⟨d, ds, h1, h2, h3, h4⟩ := formatNat_shape i.natAbs
  unfold formatInt
  split
  · rw [h1]; exact validNumber_minus d ds h2 h3 h4
  · rw [h1]; exact validNumber_digits d ds h2 h3 h4

theorem formatInt_parse (i : Int) (hi : IsInt64 i) : parseInt64 (formatInt i) = some i := by
  obtain ⟨d, ds, h1, h2, h3, _⟩ := formatNat_shape i.natAbs
  have hv := formatNat_value i.natAbs
  rw [h1] at hv
  have hne := isDigit_ne_minus d h2
  unfold formatInt
  split
  · rename_i hneg
    have habs : |i| = -i := abs_of_neg hneg
    simp [parseInt64, h1, hv, habs, hi]
  · rename_i hpos
    have habs : |i| = i := abs_of_nonneg (by omega)
    simp [parseInt64, h1, hv, hne.1, hne.2, habs, hi]

/-! ## Scanning the output of `json.Marshal` -/

theorem lexFrom_idle_cons (c : Byte) (r : Str) :
    lexFrom LexMode.idle (c :: r) = dispatch c (fun m => lexFrom m r) := by
  simp [lexFrom]

theorem lexFrom_num_cons (buf : Str) (c : Byte) (r : Str) :
    lexFrom (LexMode.num buf) (c :: r) =
      if isNumberChar c then lexFrom (LexMode.num (buf ++ [c])) r
      else consToken (numberToken buf) (dispatch c (fun m => lexFrom m r)) := by
  simp [lexFrom]

theorem lex_num_run (ds : Str) (h : ∀ c ∈ ds, isNumberChar c = true) :
    ∀ (buf : Str) (c : Byte) (r : Str), isNumberChar c = false →
      lexFrom (LexMode.num buf) (ds ++ c :: r) =
        consToken (numberToken (buf ++ ds)) (dispatch c (fun m => lexFrom m r)) := by
  induction ds with
  | nil => intro buf c r hc; simp [lexFrom_num_cons, hc]
  | cons x ds ih =>
    intro buf c r hc
    have hx := h x (by simp)
    rw [List.cons_append, lexFrom_num_cons, if_pos hx,
      ih (fun y hy => h y (by simp [hy])) (buf ++ [x]) c r hc]
    simp

theorem classify_digit (d : Byte) (h : isDigit d = true) :
    classify d = Start.enter (LexMode.num [d]) := by
  have key : ∀ m : Fin 10, classify (Fin.ofNat (48 + m.val) : Byte) =
      Start.enter (LexMode.num [Fin.ofNat (48 + m.val)]) := by decide
  have hb : 48 ≤ d.val ∧ d.val ≤ 57 := by simpa [isDigit] using h
  have hd : (Fin.ofNat (48 + (d.val - 48)) : Byte) = d := by
    apply ofNat_val
    have := d.isLt
    omega
  have := key ⟨d.val - 48, by omega⟩
  simp only [hd] at this
  exact this

theorem formatInt_lex (i : Int) (c : Byte) (r : Str) (hc : isNumberChar c = false) :
    lexFrom LexMode.idle (formatInt i ++ c :: r) =
      consToken (some (Token.number (formatInt i))) (dispatch c (fun m => lexFrom m r)) := by
  have hvalid := formatInt_valid i
  obtain ⟨d, ds, h1, h2, h3, _⟩ := formatNat_shape i.natAbs
  have hds : ∀ x ∈ ds, isNumberChar x = true := fun x hx => isDigit_numberChar x (h3 x hx)
  unfold formatInt at hvalid ⊢
  by_cases hneg : i < 0
  · simp only [hneg, if_true] at hvalid ⊢
    rw [h1] at hvalid ⊢
    have hcl : classify (45 : Byte) = Start.enter (LexMode.num [45]) := by decide
    have hrun : ∀ x ∈ d :: ds, isNumberChar x = true := by
      intro x hx
      rcases List.mem_cons.mp hx with hx | hx
      · rw [hx]; exact isDigit_numberChar d h2
      · exact hds x hx
    have := lex_num_run (d :: ds) hrun [45] c r hc
    rw [List.cons_append, lexFrom_idle_cons, dispatch, hcl]
    simp only
    rw [this]
    simp [numberToken, hvalid]
  · simp only [hneg, if_false] at hvalid ⊢
    rw [h1] at hvalid ⊢
    have := lex_num_run ds hds [d] c r hc
    rw [List.cons_append, lexFrom_idle_cons, dispatch, classify_digit d h2]
    simp only
    rw [this]
    simp [numberToken, hvalid]


theorem lexFrom_str_cons (buf : Str) (c : Byte) (r : Str) :
    lexFrom (LexMode.str buf) (c :: r) =
      if c = 34 then consToken (some (Token.string buf)) (lexFrom LexMode.idle r)
      else if c = 92 then lexFrom (LexMode.esc buf) r
      else if c.val < 32 then none
      else lexFrom (LexMode.str (buf ++ [c])) r := by
  simp [lexFrom]

theorem lex_open (rest : Str) :
    lexFrom LexMode.idle (ascii "\x7b\"iat\":" ++ rest) =
      consToken (some Token.lbrace) (consToken (some (Token.string (ascii "iat")))
        (consToken (some Token.colon) (lexFrom LexMode.idle rest))) := by
  have h : ascii "\x7b\"iat\":" = [123, 34, 105, 97, 116, 34, 58] := by decide
  have h2 : ascii "iat" = [105, 97, 116] := by decide
  rw [h, h2]
  simp +decide [lexFrom_idle_cons, lexFrom_str_cons, dispatch, classify]

theorem lex_exp (rest : Str) :
    dispatch 44 (fun m => lexFrom m (ascii "\"exp\":" ++ rest)) =
      consToken (some Token.comma) (consToken (some (Token.string (ascii "exp")))
        (consToken (some Token.colon) (lexFrom LexMode.idle rest))) := by
  have h : ascii "\"exp\":" = [34, 101, 120, 112, 34, 58] := by decide
  have h2 : ascii "exp" = [101, 120, 112] := by decide
  rw [h, h2]
  simp +decide [lexFrom_idle_cons, lexFrom_str_cons, dispatch, classify]

theorem lex_uid (rest : Str) :
    dispatch 44 (fun m => lexFrom m (ascii "\"uid\":" ++ rest)) =
      consToken (some Token.comma) (consToken (some (Token.string (ascii "uid")))
        (consToken (some Token.colon) (lexFrom LexMode.idle rest))) := by
  have h : ascii "\"uid\":" = [34, 117, 105, 100, 34, 58] := by decide
  have h2 : ascii "uid" = [117, 105, 100] := by decide
  rw [h, h2]
  simp +decide [lexFrom_idle_cons, lexFrom_str_cons, dispatch, classify]

theorem lex_kind (b : Bool) :
    dispatch 44 (fun m => lexFrom m (ascii "\"is_access_token\":" ++
        ((if b = true then ascii "true" else ascii "false") ++ ascii "\x7d"))) =
      some [Token.comma, Token.string (ascii "is_access_token"), Token.colon,
        (if b = true then Token.litTrue else Token.litFalse), Token.rbrace] := by
  cases b <;> decide

theorem lex_marshal (c : Claims) :
    lexFrom LexMode.idle ((jsonMarshalClaims c).getD []) =
      some [Token.lbrace, Token.string (ascii "iat"), Token.colon,
        Token.number (formatInt c.InterArrivalTime), Token.comma,
        Token.string (ascii "exp"), Token.colon, Token.number (formatInt c.ExpirationDate),
        Token.comma, Token.string (ascii "uid"), Token.colon, Token.number (formatInt c.Uid),
        Token.comma, Token.string (ascii "is_access_token"), Token.colon,
        (if c.Kind = true then Token.litTrue else Token.litFalse), Token.rbrace] := by
  have e1 : ascii ",\"exp\":" = 44 :: ascii "\"exp\":" := by decide
  have e2 : ascii ",\"uid\":" = 44 :: ascii "\"uid\":" := by decide
  have e3 : ascii ",\"is_access_token\":" = 44 :: ascii "\"is_access_token\":" := by decide
  have hc : isNumberChar (44 : Byte) = false := by decide
  simp only [jsonMarshalClaims, Option.getD_some, List.append_assoc, e1, e2, e3,
    List.cons_append]
  rw [lex_open, formatInt_lex _ _ _ hc, lex_exp, formatInt_lex _ _ _ hc, lex_uid,
    formatInt_lex _ _ _ hc, lex_kind]
  simp [consToken]


theorem selectField_iat : selectField (ascii "iat") = some Field.iat := by decide

theorem selectField_exp : selectField (ascii "exp") = some Field.exp := by decide

theorem selectField_uid : selectField (ascii "uid") = some Field.uid := by decide

theorem selectField_kind : selectField (ascii "is_access_token") = some Field.isAccessToken := by
  decide

theorem decode_marshal (c : Claims) (h1 : IsInt64 c.InterArrivalTime)
    (h2 : IsInt64 c.ExpirationDate) (h3 : IsInt64 c.Uid) :
    decodeTokens ⟨[], Expect.value, none, ⟨0, 0, 0, false⟩, false⟩
      [Token.lbrace, Token.string (ascii "iat"), Token.colon,
        Token.number (formatInt c.InterArrivalTime), Token.comma,
        Token.string (ascii "exp"), Token.colon, Token.number (formatInt c.ExpirationDate),
        Token.comma, Token.string (ascii "uid"), Token.colon, Token.number (formatInt c.Uid),
        Token.comma, Token.string (ascii "is_access_token"), Token.colon,
        (if c.Kind = true then Token.litTrue else Token.litFalse), Token.rbrace] =
      some ⟨[], Expect.done, some Field.isAccessToken, c, false⟩ := by
  obtain ⟨iat, exp, uid, kind⟩ := c
  cases kind <;>
    simp [decodeTokens, decodeStep, startValue, beginNested, readKey, storeValue, storeField,
      closeNested, afterValue, selectField_iat, selectField_exp, selectField_uid,
      selectField_kind, formatInt_parse _ h1, formatInt_parse _ h2, formatInt_parse _ h3]

theorem unmarshal_marshal (c : Claims) (h1 : IsInt64 c.InterArrivalTime)
    (h2 : IsInt64 c.ExpirationDate) (h3 : IsInt64 c.Uid) :
    jsonUnmarshalClaims ((jsonMarshalClaims c).getD []) = some c := by
  simp [jsonUnmarshalClaims, lex_marshal, decode_marshal c h1 h2 h3]


/-! ## 64-bit arithmetic -/

theorem wrap64_of_isInt64 (x : Int) (h : IsInt64 x) : wrap64 x = x := by
  unfold IsInt64 at h
  unfold wrap64
  omega

theorem wrap64_isInt64 (x : Int) : IsInt64 (wrap64 x) := by
  unfold IsInt64 wrap64
  omega

/-! ## Values stored by the decoder are in range -/

theorem rangeCheck_isInt64 (o : Option Nat) (f : Nat → Int) (v : Int)
    (h : (match o with
      | none => none
      | some n => if IsInt64 (f n) then some (f n) else none) = some v) : IsInt64 v := by
  cases o with
  | none => simp at h
  | some n =>
    simp only at h
    split at h
    · simp only [Option.some.injEq] at h
      rw [← h]
      assumption
    · simp at h

theorem parseInt64_isInt64 (lit : Str) (v : Int) (h : parseInt64 lit = some v) : IsInt64 v := by
  rcases lit with _ | ⟨c, r⟩
  · simp [parseInt64] at h
  · by_cases h1 : c = 45
    · rcases r with _ | ⟨d, ds⟩
      · simp [parseInt64, h1] at h
      · simp only [parseInt64, h1, if_true] at h
        exact rangeCheck_isInt64 _ (fun n => -(n : Int)) v h
    · by_cases h2 : c = 43
      · rcases r with _ | ⟨d, ds⟩
        · simp [parseInt64, h2] at h
        · simp only [parseInt64, h1, h2, if_true, if_false] at h
          exact rangeCheck_isInt64 _ (fun n => (n : Int)) v h
      · simp only [parseInt64, h1, h2, if_false] at h
        exact rangeCheck_isInt64 _ (fun n => (n : Int)) v h

theorem storeField_inRange (f : Field) (t : Token) (d : Decoder) (h : d.claims.InRange) :
    (storeField f t d).claims.InRange := by
  obtain ⟨h1, h2, h3⟩ := h
  unfold storeField
  split
  · exact ⟨h1, h2, h3⟩
  · split <;> exact ⟨h1, h2, h3⟩
  · split <;> exact ⟨h1, h2, h3⟩
  · split
    · rename_i hp; exact ⟨parseInt64_isInt64 _ _ hp, h2, h3⟩
    · rename_i hp; exact ⟨h1, parseInt64_isInt64 _ _ hp, h3⟩
    · rename_i hp; exact ⟨h1, h2, parseInt64_isInt64 _ _ hp⟩
    · exact ⟨h1, h2, h3⟩
  · exact ⟨h1, h2, h3⟩

theorem storeValue_inRange (d : Decoder) (t : Token) (h : d.claims.InRange) :
    (storeValue d t).claims.InRange := by
  unfold storeValue
  split
  · split <;> exact h
  · split
    · exact h
    · exact storeField_inRange _ _ _ h
  · exact h

theorem beginNested_claims (d d2 : Decoder) (b : Bool) (h : beginNested d b = some d2) :
    d2.claims = d.claims := by
  unfold beginNested at h
  split at h
  · simp at h
  · simp only [Option.some.injEq] at h
    rw [← h]

theorem closeNested_claims (d d2 : Decoder) (h : closeNested d = some d2) :
    d2.claims = d.claims := by
  unfold closeNested at h
  split at h
  · simp at h
  · simp only [Option.some.injEq] at h
    rw [← h]

theorem startValue_inRange (d d2 : Decoder) (t : Token) (h : startValue d t = some d2)
    (hr : d.claims.InRange) : d2.claims.InRange := by
  unfold startValue at h
  split at h
  · rw [beginNested_claims _ _ _ h]; exact hr
  · rw [beginNested_claims _ _ _ h]; exact hr
  · simp at h
  · simp at h
  · simp at h
  · simp at h
  · simp only [Option.some.injEq] at h
    rw [← h]
    exact storeValue_inRange d t hr

theorem readKey_claims (d d2 : Decoder) (t : Token) (h : readKey d t = some d2) :
    d2.claims = d.claims := by
  unfold readKey at h
  split at h
  · simp only [Option.some.injEq] at h
    rw [← h]
  · simp at h

theorem decodeStep_inRange (d d2 : Decoder) (t : Token) (h : decodeStep d t = some d2)
    (hr : d.claims.InRange) : d2.claims.InRange := by
  unfold decodeStep at h
  split at h
  · exact startValue_inRange d d2 t h hr
  · split at h
    · rw [closeNested_claims _ _ h]; exact hr
    · exact startValue_inRange d d2 t h hr
  · split at h
    · rw [closeNested_claims _ _ h]; exact hr
    · rw [readKey_claims _ _ _ h]; exact hr
  · rw [readKey_claims _ _ _ h]; exact hr
  · split at h
    · simp only [Option.some.injEq] at h
      rw [← h]; exact hr
    · simp at h
  · split at h
    · simp at h
    · split at h
      · simp only [Option.some.injEq] at h
        rw [← h]; exact hr
      · split at h
        · rw [closeNested_claims _ _ h]; exact hr
        · simp at h
  · simp at h

theorem decodeTokens_inRange (ts : List Token) : ∀ (d d2 : Decoder),
    decodeTokens d ts = some d2 → d.claims.InRange → d2.claims.InRange := by
  induction ts with
  | nil =>
    intro d d2 h hr
    simp only [decodeTokens, Option.some.injEq] at h
    rw [← h]; exact hr
  | cons t ts ih =>
    intro d d2 h hr
    simp only [decodeTokens] at h
    split at h
    · simp at h
    · rename_i d1 hstep
      exact ih d1 d2 h (decodeStep_inRange d d1 t hstep hr)

theorem unmarshal_inRange (data : Str) (c : Claims) (h : jsonUnmarshalClaims data = some c) :
    c.InRange := by
  unfold jsonUnmarshalClaims at h
  split at h
  · simp at h
  · split at h
    · simp at h
    · rename_i d hd
      split at h
      · simp only [Option.some.injEq] at h
        rw [← h]
        exact decodeTokens_inRange _ _ _ hd ⟨by decide, by decide, by decide⟩
      · simp at h


/-! ## The program on three-segment strings -/

theorem signJWT_eq (cfg : Config) (h p : Str) :
    signJWT cfg h p =
      h ++ dot :: (p ++ dot :: base64Encode (hexEncode (hmacSHA256 cfg.JwtKey (h ++ p)))) := by
  simp [signJWT]

theorem signJWT_count (cfg : Config) (h p : Str) (hh : dot ∉ h) (hp : dot ∉ p) :
    (signJWT cfg h p).count dot = 2 := by
  rw [signJWT_eq]
  simp [List.count_append, List.count_eq_zero.mpr hh, List.count_eq_zero.mpr hp,
    List.count_eq_zero.mpr (base64Encode_not_mem_dot _)]

theorem signJWT_split (cfg : Config) (h p : Str) (hh : dot ∉ h) (hp : dot ∉ p) :
    splitDot (signJWT cfg h p) =
      [h, p, base64Encode (hexEncode (hmacSHA256 cfg.JwtKey (h ++ p)))] := by
  rw [signJWT_eq]
  exact splitDot_three h p _ hh hp (base64Encode_not_mem_dot _)

theorem resigned_segment (cfg : Config) (h p : Str) (hh : dot ∉ h) (hp : dot ∉ p) :
    (splitDot (signJWT cfg h p))[2]? =
      some (base64Encode (hexEncode (hmacSHA256 cfg.JwtKey (h ++ p)))) := by
  rw [signJWT_split cfg h p hh hp]
  rfl

theorem authorize_of_count_ne (cfg : Config) (now : Int) (s : Str) (h : s.count dot ≠ 2) :
    AuthorizeJWT cfg now s = some ⟨some invalidJwt, 0, false⟩ := by
  unfold AuthorizeJWT
  simp [findAllDots_length, h]

theorem authorize_segments (cfg : Config) (now : Int) (h p sg : Str)
    (hc : (h ++ dot :: (p ++ dot :: sg)).count dot = 2) :
    AuthorizeJWT cfg now (h ++ dot :: (p ++ dot :: sg)) =
      if (splitDot (signJWT cfg h p))[2]? ≠ some sg then some ⟨some invalidJwt, 0, false⟩
      else
        match jsonUnmarshalClaims (base64Decode p).1 with
        | none => some ⟨some cfg.ServerInternalError, 0, false⟩
        | some claims =>
          if claims.ExpirationDate < sub64 now claims.InterArrivalTime then
            some ⟨some expiredJwt, 0, false⟩
          else some ⟨none, claims.Uid, claims.Kind⟩ := by
  obtain ⟨hh, hp, hs⟩ := segments_not_mem h p sg hc
  unfold AuthorizeJWT
  have hr := resigned_segment cfg h p hh hp
  simp only [findAllDots_length, hc, splitDot_three h p sg hh hp hs]
  by_cases hsig : sg = base64Encode (hexEncode (hmacSHA256 cfg.JwtKey (h ++ p)))
  · simp [hsig, hr]
  · have hsig2 : ¬ base64Encode (hexEncode (hmacSHA256 cfg.JwtKey (h ++ p))) = sg :=
      fun e => hsig e.symm
    simp [hsig, hsig2, hr]

theorem authorize_signed (cfg : Config) (now : Int) (h p : Str) (hh : dot ∉ h) (hp : dot ∉ p) :
    AuthorizeJWT cfg now (signJWT cfg h p) =
      match jsonUnmarshalClaims (base64Decode p).1 with
      | none => some ⟨some cfg.ServerInternalError, 0, false⟩
      | some claims =>
        if claims.ExpirationDate < sub64 now claims.InterArrivalTime then
          some ⟨some expiredJwt, 0, false⟩
        else some ⟨none, claims.Uid, claims.Kind⟩ := by
  have hc := signJWT_count cfg h p hh hp
  rw [signJWT_eq] at hc ⊢
  rw [authorize_segments cfg now h p _ hc, resigned_segment cfg h p hh hp]
  simp

theorem generateByClaims_eq (cfg : Config) (c : Claims) :
    generateByClaims cfg c =
      (signJWT cfg (base64Encode HeaderPlain) (base64Encode ((jsonMarshalClaims c).getD [])),
        none) := by
  simp [generateByClaims, jsonMarshalClaims]

theorem GenerateTokenPair_eq (cfg : Config) (now uid : Int) :
    GenerateTokenPair cfg now uid =
      ((generateByClaims cfg ⟨now, cfg.JwtTimeout, uid, true⟩).1,
       (generateByClaims cfg ⟨now, mul64 cfg.JwtTimeout 10, uid, false⟩).1, none) := by
  simp [GenerateTokenPair, generateByClaims_eq, AccessTokenType, RefreshTokenType]

theorem tokenClaims_generated (cfg : Config) (c : Claims) (hc : c.InRange) :
    tokenClaims (generateByClaims cfg c).1 = some c := by
  rw [generateByClaims_eq]
  simp only [tokenClaims,
    signJWT_split cfg _ _ (base64Encode_not_mem_dot _) (base64Encode_not_mem_dot _)]
  simp [base64Decode_encode, unmarshal_marshal c hc.1 hc.2.1 hc.2.2]

theorem authorize_generated (cfg : Config) (now : Int) (c : Claims) (hc : c.InRange) :
    AuthorizeJWT cfg now (generateByClaims cfg c).1 =
      if c.ExpirationDate < sub64 now c.InterArrivalTime then some ⟨some expiredJwt, 0, false⟩
      else some ⟨none, c.Uid, c.Kind⟩ := by
  rw [generateByClaims_eq]
  simp only []
  rw [authorize_signed cfg now _ _ (base64Encode_not_mem_dot _) (base64Encode_not_mem_dot _),
    base64Decode_encode, unmarshal_marshal c hc.1 hc.2.1 hc.2.2]


/-! ## The claims -/

/-- C1 (round trip).  The access token issued by `GenerateTokenPair` at clock
`T` is accepted by `AuthorizeJWT` at every clock `t` with `0 ≤ t - T ≤ W`,
where `W` is the configured access window: issuance returns a nil error, and
verification returns a nil error, the same uid and the type
`AccessTokenType`. -/
theorem access_token_round_trip (cfg : Config) (T t uid : Int)
    (hW : IsInt64 cfg.JwtTimeout) (hT : IsInt64 T) (hu : IsInt64 uid)
    (h0 : 0 ≤ t - T) (h1 : t - T ≤ cfg.JwtTimeout) :
    (GenerateTokenPair cfg T uid).2.2 = none ∧
      AuthorizeJWT cfg t (GenerateTokenPair cfg T uid).1 = some ⟨none, uid, AccessTokenType⟩ := by
  rw [GenerateTokenPair_eq]
  refine ⟨rfl, ?_⟩
  simp only []
  rw [authorize_generated cfg t _ ⟨hT, hW, hu⟩]
  have hsub : sub64 t T = t - T := by
    apply wrap64_of_isInt64
    unfold IsInt64 at hW ⊢
    omega
  simp only [hsub]
  rw [if_neg (by omega)]
  rfl

/-- C1, the instance of the specification: uid 42, a window of 3600 seconds,
verification 3599 seconds after issuance. -/
theorem access_token_round_trip_witness :
    (GenerateTokenPair sampleConfig 1700000000 42).2.2 = none ∧
      AuthorizeJWT sampleConfig 1700003599 (GenerateTokenPair sampleConfig 1700000000 42).1 =
        some ⟨none, 42, true⟩ :=
  access_token_round_trip sampleConfig 1700000000 1700003599 42 (by decide) (by decide)
    (by decide) (by decide) (by decide)

/-- C3 (structural rejection).  A string whose number of dots is not two is
rejected with `ServerError{400, 40002, "invalid jwt"}`, uid 0 and type false,
whatever the key and the clock. -/
theorem wrong_dot_count_rejected (cfg : Config) (now : Int) (s : Str) (h : s.count dot ≠ 2) :
    AuthorizeJWT cfg now s =
      some ⟨some ⟨400, 40002, "invalid jwt", "JWT 认证错误!"⟩, 0, false⟩ :=
  authorize_of_count_ne cfg now s h

/-- C3 on the two strings of the specification, `abc` and `a.b.c.d`. -/
theorem wrong_dot_count_rejected_witness :
    AuthorizeJWT sampleConfig 0 (ascii "abc") =
        some ⟨some ⟨400, 40002, "invalid jwt", "JWT 认证错误!"⟩, 0, false⟩ ∧
      AuthorizeJWT sampleConfig 0 (ascii "a.b.c.d") =
        some ⟨some ⟨400, 40002, "invalid jwt", "JWT 认证错误!"⟩, 0, false⟩ :=
  ⟨wrong_dot_count_rejected sampleConfig 0 (ascii "abc") (by decide),
   wrong_dot_count_rejected sampleConfig 0 (ascii "a.b.c.d") (by decide)⟩

/-- C4 (signature gate).  A string `h.p.sg` with exactly two dots whose third
segment is not the signature segment that `signJWT` recomputes over `h` and
`p` is rejected with the invalid-token error, whatever `p` decodes to and
whatever the clock is; the result is the very value returned for a string
`s2` with a wrong number of dots. -/
theorem signature_mismatch_rejected (cfg : Config) (now : Int) (s h p sg : Str)
    (hs : s = h ++ dot :: (p ++ dot :: sg)) (hc : s.count dot = 2)
    (hne : (splitDot (signJWT cfg h p))[2]? ≠ some sg)
    (now2 : Int) (s2 : Str) (hc2 : s2.count dot ≠ 2) :
    AuthorizeJWT cfg now s = some ⟨some invalidJwt, 0, false⟩ ∧
      AuthorizeJWT cfg now s = AuthorizeJWT cfg now2 s2 := by
  subst hs
  have key : AuthorizeJWT cfg now (h ++ dot :: (p ++ dot :: sg)) =
      some ⟨some invalidJwt, 0, false⟩ := by
    rw [authorize_segments cfg now h p sg hc, if_pos hne]
  exact ⟨key, by rw [key, authorize_of_count_ne cfg now2 s2 hc2]⟩

/-- C4 on `a.b.!`: the character `!` occurs in no signature segment. -/
theorem signature_mismatch_rejected_witness :
    AuthorizeJWT sampleConfig 0 (ascii "a.b.!") = some ⟨some invalidJwt, 0, false⟩ ∧
      AuthorizeJWT sampleConfig 0 (ascii "a.b.!") = AuthorizeJWT sampleConfig 7 (ascii "abc") :=
  signature_mismatch_rejected sampleConfig 0 (ascii "a.b.!") (ascii "a") (ascii "b") (ascii "!")
    (by decide) (by decide)
    (by
      rw [resigned_segment sampleConfig (ascii "a") (ascii "b") (by decide) (by decide)]
      intro e
      have hm : (33 : Byte) ∈ base64Encode
          (hexEncode (hmacSHA256 sampleConfig.JwtKey (ascii "a" ++ ascii "b"))) := by
        rw [Option.some.inj e]
        decide
      rcases base64Encode_mem _ _ hm with h1 | h1
      · revert h1; decide
      · revert h1; decide)
    7 (ascii "abc") (by decide)


/-- C5, counterexample.  A correctly signed token whose claims are
`iat = -1`, `exp = W = 2^63 - 1`, verified at clock `now = 2^63 - 1`: the
payload deserialises to these claims, `now - iat = W + 1` (over the integers,
and in `int64`, where both sides wrap to `-2^63`) and `W < now - iat` over
the integers, yet `AuthorizeJWT` accepts the token. -/
theorem expiry_boundary_counterexample :
    tokenClaims (generateByClaims sampleConfig ⟨-1, 9223372036854775807, 7, true⟩).1 =
        some ⟨-1, 9223372036854775807, 7, true⟩ ∧
      (9223372036854775807 : Int) - (-1) = 9223372036854775807 + 1 ∧
      sub64 9223372036854775807 (-1) = wrap64 (9223372036854775807 + 1) ∧
      (9223372036854775807 : Int) < 9223372036854775807 - (-1) ∧
      AuthorizeJWT sampleConfig 9223372036854775807
        (generateByClaims sampleConfig ⟨-1, 9223372036854775807, 7, true⟩).1 =
        some ⟨none, 7, true⟩ := by
  have hr : Claims.InRange ⟨-1, 9223372036854775807, 7, true⟩ :=
    ⟨by decide, by decide, by decide⟩
  refine ⟨tokenClaims_generated _ _ hr, by decide, by decide, by decide, ?_⟩
  rw [authorize_generated _ _ _ hr]
  decide

/-- C5, amended (expiry boundary).  For a correctly signed three-segment
token `signJWT h p` whose payload deserialises to claims `c`, and every clock
`now`: `AuthorizeJWT` returns the expired error exactly when
`c.exp < now - c.iat` with the subtraction taken in `int64`; when the true
difference `now - c.iat` is an `int64` value this is `c.exp < now - c.iat`
over the integers; the token is accepted at the clock `c.iat + c.exp`, and
rejected as expired one second later unless `c.exp` is the largest `int64`. -/
theorem expiry_boundary (cfg : Config) (now : Int) (h p : Str) (c : Claims)
    (hh : dot ∉ h) (hp : dot ∉ p) (hdec : jsonUnmarshalClaims (base64Decode p).1 = some c) :
    (AuthorizeJWT cfg now (signJWT cfg h p) = some ⟨some expiredJwt, 0, false⟩ ↔
        c.ExpirationDate < sub64 now c.InterArrivalTime) ∧
      (IsInt64 (now - c.InterArrivalTime) →
        (AuthorizeJWT cfg now (signJWT cfg h p) = some ⟨some expiredJwt, 0, false⟩ ↔
          c.ExpirationDate < now - c.InterArrivalTime)) ∧
      AuthorizeJWT cfg (c.InterArrivalTime + c.ExpirationDate) (signJWT cfg h p) =
        some ⟨none, c.Uid, c.Kind⟩ ∧
      (c.ExpirationDate < 9223372036854775807 →
        AuthorizeJWT cfg (c.InterArrivalTime + c.ExpirationDate + 1) (signJWT cfg h p) =
          some ⟨some expiredJwt, 0, false⟩) := by
  have hexp : IsInt64 c.ExpirationDate := (unmarshal_inRange _ c hdec).2.1
  have hA : ∀ t : Int, AuthorizeJWT cfg t (signJWT cfg h p) =
      if c.ExpirationDate < sub64 t c.InterArrivalTime then some ⟨some expiredJwt, 0, false⟩
      else some ⟨none, c.Uid, c.Kind⟩ := by
    intro t
    rw [authorize_signed cfg t h p hh hp, hdec]
  have hiff : AuthorizeJWT cfg now (signJWT cfg h p) = some ⟨some expiredJwt, 0, false⟩ ↔
      c.ExpirationDate < sub64 now c.InterArrivalTime := by
    rw [hA]
    by_cases hlt : c.ExpirationDate < sub64 now c.InterArrivalTime
    · simp [hlt]
    · simp [hlt]
  refine ⟨hiff, ?_, ?_, ?_⟩
  · intro hr
    rw [hiff, sub64, wrap64_of_isInt64 _ hr]
  · have hs : sub64 (c.InterArrivalTime + c.ExpirationDate) c.InterArrivalTime =
        c.ExpirationDate := by
      rw [sub64, add_sub_cancel_left, wrap64_of_isInt64 _ hexp]
    rw [hA, hs, if_neg (lt_irrefl _)]
  · intro hmax
    have hr : IsInt64 (c.ExpirationDate + 1) := by
      unfold IsInt64 at hexp ⊢
      omega
    have hs : sub64 (c.InterArrivalTime + c.ExpirationDate + 1) c.InterArrivalTime =
        c.ExpirationDate + 1 := by
      have e : c.InterArrivalTime + c.ExpirationDate + 1 - c.InterArrivalTime =
          c.ExpirationDate + 1 := by omega
      rw [sub64, e, wrap64_of_isInt64 _ hr]
    rw [hA, hs, if_pos (by omega)]

/-- C5, amended, on the token of the specification (uid 42, window 3600,
issued at 1700000000): verified at 1700003600 it is not expired, it is
accepted at the end of its window and expired one second later. -/
theorem expiry_boundary_witness :
    (AuthorizeJWT sampleConfig 1700003600
          (signJWT sampleConfig (base64Encode HeaderPlain)
            (base64Encode ((jsonMarshalClaims ⟨1700000000, 3600, 42, true⟩).getD []))) =
          some ⟨some expiredJwt, 0, false⟩ ↔
        (3600 : Int) < sub64 1700003600 1700000000) ∧
      (IsInt64 (1700003600 - 1700000000) →
        (AuthorizeJWT sampleConfig 1700003600
          (signJWT sampleConfig (base64Encode HeaderPlain)
            (base64Encode ((jsonMarshalClaims ⟨1700000000, 3600, 42, true⟩).getD []))) =
          some ⟨some expiredJwt, 0, false⟩ ↔
          (3600 : Int) < 1700003600 - 1700000000)) ∧
      AuthorizeJWT sampleConfig (1700000000 + 3600)
          (signJWT sampleConfig (base64Encode HeaderPlain)
            (base64Encode ((jsonMarshalClaims ⟨1700000000, 3600, 42, true⟩).getD []))) =
        some ⟨none, 42, true⟩ ∧
      ((3600 : Int) < 9223372036854775807 →
        AuthorizeJWT sampleConfig (1700000000 + 3600 + 1)
          (signJWT sampleConfig (base64Encode HeaderPlain)
            (base64Encode ((jsonMarshalClaims ⟨1700000000, 3600, 42, true⟩).getD []))) =
          some ⟨some expiredJwt, 0, false⟩) :=
  expiry_boundary sampleConfig 1700003600 (base64Encode HeaderPlain)
    (base64Encode ((jsonMarshalClaims ⟨1700000000, 3600, 42, true⟩).getD []))
    ⟨1700000000, 3600, 42, true⟩
    (base64Encode_not_mem_dot _) (base64Encode_not_mem_dot _)
    (by
      rw [base64Decode_encode]
      exact unmarshal_marshal ⟨1700000000, 3600, 42, true⟩ (by decide) (by decide) (by decide))

/-- C6 (decode failure).  A string `h.p.sg` with exactly two dots whose third
segment is the recomputed signature and whose decoded payload does not
deserialise into `Claims` makes `AuthorizeJWT` return `ServerInternalError`
with uid 0 and type false, at every clock. -/
theorem decode_failure_is_internal (cfg : Config) (now : Int) (s h p sg : Str)
    (hs : s = h ++ dot :: (p ++ dot :: sg)) (hc : s.count dot = 2)
    (hsig : (splitDot (signJWT cfg h p))[2]? = some sg)
    (hdec : jsonUnmarshalClaims (base64Decode p).1 = none) :
    AuthorizeJWT cfg now s = some ⟨some cfg.ServerInternalError, 0, false⟩ := by
  subst hs
  rw [authorize_segments cfg now h p sg hc, if_neg (by simp [hsig]), hdec]

/-- C6 on the correctly signed token whose payload `bm9wZQ==` is the base64
form of the text `nope`. -/
theorem decode_failure_is_internal_witness :
    AuthorizeJWT sampleConfig 0 (signJWT sampleConfig (ascii "e30=") (ascii "bm9wZQ==")) =
      some ⟨some sampleConfig.ServerInternalError, 0, false⟩ :=
  decode_failure_is_internal sampleConfig 0
    (signJWT sampleConfig (ascii "e30=") (ascii "bm9wZQ==")) (ascii "e30=") (ascii "bm9wZQ==")
    (base64Encode (hexEncode (hmacSHA256 sampleConfig.JwtKey (ascii "e30=" ++ ascii "bm9wZQ=="))))
    (signJWT_eq _ _ _) (signJWT_count _ _ _ (by decide) (by decide))
    (resigned_segment _ _ _ (by decide) (by decide)) (by decide)

/-- C7, counterexample.  A correctly signed token whose claims are
`iat = -2^63`, `exp = 0`, uid 7, verified at the clock 1700000000: the payload
deserialises to these claims, `AuthorizeJWT` returns a nil error with uid 7
and type true, and yet `exp < now - iat` over the integers (the `int64`
subtraction of line 123 wraps to a negative value). -/
theorem no_false_accept_counterexample :
    tokenClaims (generateByClaims sampleConfig ⟨-9223372036854775808, 0, 7, true⟩).1 =
        some ⟨-9223372036854775808, 0, 7, true⟩ ∧
      AuthorizeJWT sampleConfig 1700000000
          (generateByClaims sampleConfig ⟨-9223372036854775808, 0, 7, true⟩).1 =
        some ⟨none, 7, true⟩ ∧
      (0 : Int) < 1700000000 - (-9223372036854775808) ∧
      sub64 1700000000 (-9223372036854775808) = -9223372035154775808 := by
  have hr : Claims.InRange ⟨-9223372036854775808, 0, 7, true⟩ :=
    ⟨by decide, by decide, by decide⟩
  refine ⟨tokenClaims_generated _ _ hr, ?_, by decide, by decide⟩
  rw [authorize_generated _ _ _ hr]
  decide

/-- C7, amended (no false accept).  If `AuthorizeJWT` returns a nil error
with `uid` and `kind`, then the input has exactly two dots, it is `h.p.sg`
where `sg` is the signature segment `signJWT` recomputes over `h` and `p`,
the decoded payload deserialises to claims `c` with `c.Uid = uid` and
`c.Type = kind`, and the expiry condition the code evaluates,
`c.ExpirationDate < now - c.InterArrivalTime` with the wrapping `int64`
subtraction of line 123, is false; the same comparison over the integers is
false whenever the true difference `now - c.InterArrivalTime` is an `int64`
value. -/
theorem no_false_accept (cfg : Config) (now : Int) (s : Str) (uid : Int) (kind : Bool)
    (hok : AuthorizeJWT cfg now s = some ⟨none, uid, kind⟩) :
    s.count dot = 2 ∧
      ∃ h p sg c, s = h ++ dot :: (p ++ dot :: sg) ∧
        (splitDot (signJWT cfg h p))[2]? = some sg ∧
        jsonUnmarshalClaims (base64Decode p).1 = some c ∧
        c.Uid = uid ∧ c.Kind = kind ∧
        ¬ (c.ExpirationDate < sub64 now c.InterArrivalTime) ∧
        (IsInt64 (now - c.InterArrivalTime) →
          ¬ (c.ExpirationDate < now - c.InterArrivalTime)) := by
  have hc : s.count dot = 2 := by
    by_contra hne
    rw [authorize_of_count_ne cfg now s hne] at hok
    simp at hok
  refine ⟨hc, ?_⟩
  obtain ⟨h, p, sg, rfl⟩ := exists_segments s hc
  rw [authorize_segments cfg now h p sg hc] at hok
  by_cases hsig : (splitDot (signJWT cfg h p))[2]? = some sg
  · rw [if_neg (by simp [hsig])] at hok
    cases hdec : jsonUnmarshalClaims (base64Decode p).1 with
    | none =>
      rw [hdec] at hok
      simp at hok
    | some c =>
      rw [hdec] at hok
      simp only [] at hok
      by_cases hlt : c.ExpirationDate < sub64 now c.InterArrivalTime
      · rw [if_pos hlt] at hok
        simp at hok
      · rw [if_neg hlt] at hok
        simp only [Option.some.injEq, AuthResult.mk.injEq, true_and] at hok
        refine ⟨h, p, sg, c, rfl, hsig, hdec, hok.1, hok.2, hlt, ?_⟩
        intro hr
        rw [sub64, wrap64_of_isInt64 _ hr] at hlt
        exact hlt
  · rw [if_pos hsig] at hok
    simp at hok

/-- C7, amended, on the access token of the specification, verified 3599
seconds after issuance. -/
theorem no_false_accept_witness :
    (generateByClaims sampleConfig ⟨1700000000, 3600, 42, true⟩).1.count dot = 2 ∧
      ∃ h p sg c,
        (generateByClaims sampleConfig ⟨1700000000, 3600, 42, true⟩).1 =
          h ++ dot :: (p ++ dot :: sg) ∧
        (splitDot (signJWT sampleConfig h p))[2]? = some sg ∧
        jsonUnmarshalClaims (base64Decode p).1 = some c ∧
        c.Uid = 42 ∧ c.Kind = true ∧
        ¬ (c.ExpirationDate < sub64 1700003599 c.InterArrivalTime) ∧
        (IsInt64 (1700003599 - c.InterArrivalTime) →
          ¬ (c.ExpirationDate < 1700003599 - c.InterArrivalTime)) :=
  no_false_accept sampleConfig 1700003599
    (generateByClaims sampleConfig ⟨1700000000, 3600, 42, true⟩).1 42 true
    (by
      rw [authorize_generated _ _ _ ⟨by decide, by decide, by decide⟩]
      decide)


/-- C8 (pair consistency).  The payloads of the two tokens of one
`GenerateTokenPair` call deserialise to claims with the same `iat` (the clock
reading of the call) and the same uid; the access token has type true and the
refresh token type false. -/
theorem token_pair_consistency (cfg : Config) (now uid : Int)
    (hW : IsInt64 cfg.JwtTimeout) (hn : IsInt64 now) (hu : IsInt64 uid) :
    ∃ ca cr, tokenClaims (GenerateTokenPair cfg now uid).1 = some ca ∧
      tokenClaims (GenerateTokenPair cfg now uid).2.1 = some cr ∧
      ca.InterArrivalTime = cr.InterArrivalTime ∧ ca.InterArrivalTime = now ∧
      ca.Uid = uid ∧ cr.Uid = uid ∧ ca.Kind = true ∧ cr.Kind = false := by
  refine ⟨⟨now, cfg.JwtTimeout, uid, true⟩, ⟨now, mul64 cfg.JwtTimeout 10, uid, false⟩, ?_, ?_,
    rfl, rfl, rfl, rfl, rfl, rfl⟩
  · rw [GenerateTokenPair_eq]
    exact tokenClaims_generated cfg _ ⟨hn, hW, hu⟩
  · rw [GenerateTokenPair_eq]
    exact tokenClaims_generated cfg _ ⟨hn, wrap64_isInt64 _, hu⟩

/-- C8 on the pair of the specification: uid 42 issued at 1700000000. -/
theorem token_pair_consistency_witness :
    ∃ ca cr, tokenClaims (GenerateTokenPair sampleConfig 1700000000 42).1 = some ca ∧
      tokenClaims (GenerateTokenPair sampleConfig 1700000000 42).2.1 = some cr ∧
      ca.InterArrivalTime = cr.InterArrivalTime ∧ ca.InterArrivalTime = 1700000000 ∧
      ca.Uid = 42 ∧ cr.Uid = 42 ∧ ca.Kind = true ∧ cr.Kind = false :=
  token_pair_consistency sampleConfig 1700000000 42 (by decide) (by decide) (by decide)

/-- C9, counterexample.  With an access window of `2^62` seconds the access
token carries `exp = 2^62` and the refresh token carries `exp = -2^63`, which
is not ten times `2^62`. -/
theorem refresh_window_counterexample :
    (tokenClaims (GenerateTokenPair wideConfig 1700000000 42).1).map Claims.ExpirationDate =
        some 4611686018427387904 ∧
      (tokenClaims (GenerateTokenPair wideConfig 1700000000 42).2.1).map Claims.ExpirationDate =
        some (-9223372036854775808) ∧
      (-9223372036854775808 : Int) ≠ 10 * 4611686018427387904 := by
  rw [GenerateTokenPair_eq]
  refine ⟨?_, ?_, by decide⟩
  · simp only []
    rw [tokenClaims_generated wideConfig _ ⟨by decide, by decide, by decide⟩]
    rfl
  · simp only []
    rw [tokenClaims_generated wideConfig _ ⟨by decide, wrap64_isInt64 _, by decide⟩]
    decide

/-- C9, amended (refresh window).  The `exp` embedded in the refresh token is
ten times the `exp` of the access token of the same call reduced to `int64`
by two's complement wrap-around; it is ten times that value as an integer
whenever the product is itself an `int64` value. -/
theorem refresh_window (cfg : Config) (now uid : Int)
    (hW : IsInt64 cfg.JwtTimeout) (hn : IsInt64 now) (hu : IsInt64 uid) :
    (tokenClaims (GenerateTokenPair cfg now uid).1).map Claims.ExpirationDate =
        some cfg.JwtTimeout ∧
      (tokenClaims (GenerateTokenPair cfg now uid).2.1).map Claims.ExpirationDate =
        some (wrap64 (10 * cfg.JwtTimeout)) ∧
      (IsInt64 (10 * cfg.JwtTimeout) →
        (tokenClaims (GenerateTokenPair cfg now uid).2.1).map Claims.ExpirationDate =
          some (10 * cfg.JwtTimeout)) := by
  have h1 : (tokenClaims (GenerateTokenPair cfg now uid).1).map Claims.ExpirationDate =
      some cfg.JwtTimeout := by
    rw [GenerateTokenPair_eq]
    simp only []
    rw [tokenClaims_generated cfg _ ⟨hn, hW, hu⟩]
    rfl
  have h2 : (tokenClaims (GenerateTokenPair cfg now uid).2.1).map Claims.ExpirationDate =
      some (wrap64 (10 * cfg.JwtTimeout)) := by
    rw [GenerateTokenPair_eq]
    simp only []
    rw [tokenClaims_generated cfg _ ⟨hn, wrap64_isInt64 _, hu⟩]
    simp [mul64, mul_comm]
  refine ⟨h1, h2, ?_⟩
  intro hr
  rw [h2, wrap64_of_isInt64 _ hr]

/-- C9, amended, on the configuration of the specification: a window of 3600
seconds gives a refresh window of 36000 seconds. -/
theorem refresh_window_witness :
    (tokenClaims (GenerateTokenPair sampleConfig 1700000000 42).1).map Claims.ExpirationDate =
        some 3600 ∧
      (tokenClaims (GenerateTokenPair sampleConfig 1700000000 42).2.1).map
          Claims.ExpirationDate = some (wrap64 (10 * 3600)) ∧
      (IsInt64 (10 * 3600) →
        (tokenClaims (GenerateTokenPair sampleConfig 1700000000 42).2.1).map
          Claims.ExpirationDate = some (10 * 3600)) :=
  refresh_window sampleConfig 1700000000 42 (by decide) (by decide) (by decide)

/-- C10 (wire format).  For every claims value and key, `generateByClaims`
returns, with a nil error, `base64(header) . base64(json) .
base64(hex(HMAC-SHA256(key, base64(header) ++ base64(json))))`, where `json`
is the output of `json.Marshal`; the token has exactly two dots, it splits
into three segments, and the first one is the constant
`eyJhbGciOiJIUzI1NiIsInR5cCI6IkpXVCJ9`. -/
theorem wire_format (cfg : Config) (c : Claims) :
    ∃ json, jsonMarshalClaims c = some json ∧
      generateByClaims cfg c =
        (base64Encode HeaderPlain ++ [dot] ++ base64Encode json ++ [dot] ++
          base64Encode (hexEncode (hmacSHA256 cfg.JwtKey
            (base64Encode HeaderPlain ++ base64Encode json))), none) ∧
      HeaderPlain = ascii "\x7b\"alg\":\"HS256\",\"typ\":\"JWT\"\x7d" ∧
      (generateByClaims cfg c).1.count dot = 2 ∧
      (splitDot (generateByClaims cfg c).1).length = 3 ∧
      (splitDot (generateByClaims cfg c).1)[0]? =
        some (ascii "eyJhbGciOiJIUzI1NiIsInR5cCI6IkpXVCJ9") := by
  refine ⟨(jsonMarshalClaims c).getD [], by simp [jsonMarshalClaims], ?_, rfl, ?_, ?_, ?_⟩
  · rw [generateByClaims_eq, signJWT_eq]
    simp
  · rw [generateByClaims_eq]
    exact signJWT_count cfg _ _ (base64Encode_not_mem_dot _) (base64Encode_not_mem_dot _)
  · rw [generateByClaims_eq]
    simp only []
    rw [signJWT_split cfg _ _ (base64Encode_not_mem_dot _) (base64Encode_not_mem_dot _)]
    rfl
  · rw [generateByClaims_eq]
    simp only []
    rw [signJWT_split cfg _ _ (base64Encode_not_mem_dot _) (base64Encode_not_mem_dot _)]
    have hh : base64Encode HeaderPlain = ascii "eyJhbGciOiJIUzI1NiIsInR5cCI6IkpXVCJ9" := by
      decide
    rw [hh]
    rfl


/-! ## The results of `AuthorizeJWT`, case by case -/

theorem exists_three_segments (s : Str) (hc : s.count dot = 2) :
    ∃ h p sg, s = h ++ dot :: (p ++ dot :: sg) ∧ dot ∉ h ∧ dot ∉ p ∧ dot ∉ sg := by
  obtain ⟨h, p, sg, rfl⟩ := exists_segments s hc
  exact ⟨h, p, sg, rfl, segments_not_mem h p sg hc⟩

theorem authorize_cases (cfg : Config) (now : Int) (s : Str) :
    AuthorizeJWT cfg now s = some ⟨some invalidJwt, 0, false⟩ ∨
      AuthorizeJWT cfg now s = some ⟨some cfg.ServerInternalError, 0, false⟩ ∨
      AuthorizeJWT cfg now s = some ⟨some expiredJwt, 0, false⟩ ∨
      ∃ uid kind, AuthorizeJWT cfg now s = some ⟨none, uid, kind⟩ := by
  by_cases hc : s.count dot = 2
  · obtain ⟨h, p, sg, rfl⟩ := exists_segments s hc
    rw [authorize_segments cfg now h p sg hc]
    by_cases hsig : (splitDot (signJWT cfg h p))[2]? ≠ some sg
    · rw [if_pos hsig]
      exact Or.inl rfl
    · rw [if_neg hsig]
      cases hdec : jsonUnmarshalClaims (base64Decode p).1 with
      | none => exact Or.inr (Or.inl rfl)
      | some c =>
        simp only []
        by_cases hlt : c.ExpirationDate < sub64 now c.InterArrivalTime
        · rw [if_pos hlt]
          exact Or.inr (Or.inr (Or.inl rfl))
        · rw [if_neg hlt]
          exact Or.inr (Or.inr (Or.inr ⟨c.Uid, c.Kind, rfl⟩))
  · exact Or.inl (authorize_of_count_ne cfg now s hc)

theorem generateByClaims_with (cfg : Config) (c : Claims) :
    generateByClaims cfg c = generateByClaimsWith jsonMarshalClaims cfg c := rfl

theorem GenerateTokenPair_with (cfg : Config) (now uid : Int) :
    GenerateTokenPair cfg now uid = GenerateTokenPairWith jsonMarshalClaims cfg now uid := rfl

theorem signJWT_ne_nil (cfg : Config) (h p : Str) : signJWT cfg h p ≠ [] := by
  rw [signJWT_eq]
  simp

theorem generateByClaimsWith_cases (marshal : Claims → Option Str) (cfg : Config) (c : Claims) :
    (∃ tok, tok ≠ [] ∧ generateByClaimsWith marshal cfg c = (tok, none)) ∨
      generateByClaimsWith marshal cfg c = ([], some cfg.ServerInternalError) := by
  unfold generateByClaimsWith
  cases marshal c with
  | none => exact Or.inr rfl
  | some bytes => exact Or.inl ⟨_, signJWT_ne_nil cfg _ _, rfl⟩

theorem GenerateTokenPairWith_cases (marshal : Claims → Option Str) (cfg : Config)
    (now uid : Int) :
    ((GenerateTokenPairWith marshal cfg now uid).2.2 = none ∧
        (GenerateTokenPairWith marshal cfg now uid).1 ≠ [] ∧
        (GenerateTokenPairWith marshal cfg now uid).2.1 ≠ []) ∨
      ((GenerateTokenPairWith marshal cfg now uid).2.2 = some cfg.ServerInternalError ∧
        (GenerateTokenPairWith marshal cfg now uid).1 = [] ∧
        (GenerateTokenPairWith marshal cfg now uid).2.1 = []) := by
  unfold GenerateTokenPairWith
  simp only []
  rcases generateByClaimsWith_cases marshal cfg
      ⟨now, cfg.JwtTimeout, uid, AccessTokenType⟩ with ⟨ta, hta, ha⟩ | ha
  · rcases generateByClaimsWith_cases marshal cfg
        ⟨now, mul64 cfg.JwtTimeout 10, uid, RefreshTokenType⟩ with ⟨tr, htr, hr⟩ | hr
    · rw [ha, hr]
      exact Or.inl ⟨rfl, hta, htr⟩
    · rw [ha, hr]
      exact Or.inr ⟨rfl, rfl, rfl⟩
  · rw [ha]
    exact Or.inr ⟨rfl, rfl, rfl⟩

/-! ## The claims, continued -/

/-- C11 (no partial claims on error).  Whenever `AuthorizeJWT` returns a
non-nil error, the returned uid is 0 and the returned type is false. -/
theorem no_partial_claims (cfg : Config) (now : Int) (s : Str) (r : AuthResult)
    (h : AuthorizeJWT cfg now s = some r) (he : r.err ≠ none) :
    r.uid = 0 ∧ r.kind = false := by
  rcases authorize_cases cfg now s with h1 | h1 | h1 | ⟨uid, kind, h1⟩
  · rw [h1] at h
    rw [← Option.some.inj h]
    exact ⟨rfl, rfl⟩
  · rw [h1] at h
    rw [← Option.some.inj h]
    exact ⟨rfl, rfl⟩
  · rw [h1] at h
    rw [← Option.some.inj h]
    exact ⟨rfl, rfl⟩
  · rw [h1] at h
    rw [← Option.some.inj h] at he
    exact absurd rfl he

/-- C11 on the scenario of the specification: the access token of uid 42
(its payload holds uid 42 and type true), verified 3601 seconds after
issuance, gives the expired error with uid 0 and type false. -/
theorem no_partial_claims_witness :
    tokenClaims (GenerateTokenPair sampleConfig 1700000000 42).1 =
        some ⟨1700000000, 3600, 42, true⟩ ∧
      AuthorizeJWT sampleConfig 1700003601 (GenerateTokenPair sampleConfig 1700000000 42).1 =
        some ⟨some expiredJwt, 0, false⟩ ∧
      ((⟨some expiredJwt, 0, false⟩ : AuthResult).uid = 0 ∧
        (⟨some expiredJwt, 0, false⟩ : AuthResult).kind = false) := by
  have hr : Claims.InRange ⟨1700000000, 3600, 42, true⟩ := ⟨by decide, by decide, by decide⟩
  have ha : AuthorizeJWT sampleConfig 1700003601
      (GenerateTokenPair sampleConfig 1700000000 42).1 = some ⟨some expiredJwt, 0, false⟩ := by
    rw [GenerateTokenPair_eq]
    exact (authorize_generated sampleConfig 1700003601 ⟨1700000000, 3600, 42, true⟩ hr).trans
      (by decide)
  refine ⟨?_, ha, no_partial_claims sampleConfig 1700003601 _ _ ha (by simp)⟩
  rw [GenerateTokenPair_eq]
  exact tokenClaims_generated _ _ hr

/-- C12 (issuance is all-or-nothing).  `GenerateTokenPair` returns either a
nil error with two non-empty tokens, or `ServerInternalError` with two empty
strings; the same holds when `json.Marshal` is allowed to fail on either
claims value, so no path of the function returns a lone token. -/
theorem issuance_all_or_nothing (cfg : Config) (now uid : Int) :
    (((GenerateTokenPair cfg now uid).2.2 = none ∧
          (GenerateTokenPair cfg now uid).1 ≠ [] ∧
          (GenerateTokenPair cfg now uid).2.1 ≠ []) ∨
        ((GenerateTokenPair cfg now uid).2.2 = some cfg.ServerInternalError ∧
          (GenerateTokenPair cfg now uid).1 = [] ∧
          (GenerateTokenPair cfg now uid).2.1 = [])) ∧
      ∀ marshal : Claims → Option Str,
        ((GenerateTokenPairWith marshal cfg now uid).2.2 = none ∧
            (GenerateTokenPairWith marshal cfg now uid).1 ≠ [] ∧
            (GenerateTokenPairWith marshal cfg now uid).2.1 ≠ []) ∨
          ((GenerateTokenPairWith marshal cfg now uid).2.2 = some cfg.ServerInternalError ∧
            (GenerateTokenPairWith marshal cfg now uid).1 = [] ∧
            (GenerateTokenPairWith marshal cfg now uid).2.1 = []) := by
  refine ⟨?_, fun marshal => GenerateTokenPairWith_cases marshal cfg now uid⟩
  rw [GenerateTokenPair_with]
  exact GenerateTokenPairWith_cases jsonMarshalClaims cfg now uid

/-- C13 (claims encoding is reversible).  For every claims value `c` with
`int64` fields, the token of `generateByClaims` has the base64 form of the
JSON text as its payload segment; decoding it gives the JSON text back
without error, and deserialising that text gives exactly `c`. -/
theorem claims_encoding_reversible (cfg : Config) (c : Claims) (hc : c.InRange) :
    ∃ json, jsonMarshalClaims c = some json ∧
      (splitDot (generateByClaims cfg c).1)[1]? = some (base64Encode json) ∧
      base64Decode (base64Encode json) = (json, false) ∧
      jsonUnmarshalClaims json = some c ∧
      tokenClaims (generateByClaims cfg c).1 = some c := by
  refine ⟨(jsonMarshalClaims c).getD [], by simp [jsonMarshalClaims], ?_,
    base64Decode_encode _, unmarshal_marshal c hc.1 hc.2.1 hc.2.2,
    tokenClaims_generated cfg c hc⟩
  rw [generateByClaims_eq]
  simp only []
  rw [signJWT_split cfg _ _ (base64Encode_not_mem_dot _) (base64Encode_not_mem_dot _)]
  rfl

/-- C13 on claims at the ends of the `int64` range, of the refresh type. -/
theorem claims_encoding_reversible_witness :
    ∃ json, jsonMarshalClaims ⟨-9223372036854775808, 9223372036854775807, -42, false⟩ =
        some json ∧
      (splitDot (generateByClaims sampleConfig
        ⟨-9223372036854775808, 9223372036854775807, -42, false⟩).1)[1]? =
        some (base64Encode json) ∧
      base64Decode (base64Encode json) = (json, false) ∧
      jsonUnmarshalClaims json =
        some ⟨-9223372036854775808, 9223372036854775807, -42, false⟩ ∧
      tokenClaims (generateByClaims sampleConfig
        ⟨-9223372036854775808, 9223372036854775807, -42, false⟩).1 =
        some ⟨-9223372036854775808, 9223372036854775807, -42, false⟩ :=
  claims_encoding_reversible sampleConfig
    ⟨-9223372036854775808, 9223372036854775807, -42, false⟩
    ⟨by decide, by decide, by decide⟩



/-- C15 (the separator position is not authenticated).  When
`h1 ++ p1 = h2 ++ p2`, the two outputs of `signJWT` end in the same signature
segment `sg`.  Hence, for `h2` and `p2` without dots, `AuthorizeJWT` on
`h2.p2.sg` is past the signature check: its result is decided by the payload
`p2` and the clock alone, and its error, if any, does not have status 40002
as long as `ServerInternalError` does not. -/
theorem separator_not_authenticated (cfg : Config) (now : Int) (h1 p1 h2 p2 : Str)
    (hcat : h1 ++ p1 = h2 ++ p2) :
    ∃ sg, signJWT cfg h1 p1 = h1 ++ dot :: (p1 ++ dot :: sg) ∧
      signJWT cfg h2 p2 = h2 ++ dot :: (p2 ++ dot :: sg) ∧
      (dot ∉ h2 → dot ∉ p2 →
        AuthorizeJWT cfg now (h2 ++ dot :: (p2 ++ dot :: sg)) =
            (match jsonUnmarshalClaims (base64Decode p2).1 with
              | none => some ⟨some cfg.ServerInternalError, 0, false⟩
              | some claims =>
                if claims.ExpirationDate < sub64 now claims.InterArrivalTime then
                  some ⟨some expiredJwt, 0, false⟩
                else some ⟨none, claims.Uid, claims.Kind⟩) ∧
          (cfg.ServerInternalError.Status ≠ 40002 →
            ∀ r e, AuthorizeJWT cfg now (h2 ++ dot :: (p2 ++ dot :: sg)) = some r →
              r.err = some e → e.Status ≠ 40002)) := by
  refine ⟨base64Encode (hexEncode (hmacSHA256 cfg.JwtKey (h1 ++ p1))), signJWT_eq cfg h1 p1,
    by rw [signJWT_eq, hcat], ?_⟩
  intro hh2 hp2
  have hA := authorize_signed cfg now h2 p2 hh2 hp2
  rw [signJWT_eq, ← hcat] at hA
  refine ⟨hA, ?_⟩
  intro hsie r e hr he
  rw [hA] at hr
  cases hdec : jsonUnmarshalClaims (base64Decode p2).1 with
  | none =>
    rw [hdec] at hr
    rw [← Option.some.inj hr] at he
    rw [← Option.some.inj he]
    exact hsie
  | some c =>
    rw [hdec] at hr
    simp only [] at hr
    by_cases hlt : c.ExpirationDate < sub64 now c.InterArrivalTime
    · rw [if_pos hlt] at hr
      rw [← Option.some.inj hr] at he
      rw [← Option.some.inj he]
      decide
    · rw [if_neg hlt] at hr
      rw [← Option.some.inj hr] at he
      exact absurd he (by simp)

/-- C15 on the token `ab.cd.sg` and the other split `a.bcd.sg`. -/
theorem separator_not_authenticated_witness :
    ∃ sg, signJWT sampleConfig (ascii "ab") (ascii "cd") =
        ascii "ab" ++ dot :: (ascii "cd" ++ dot :: sg) ∧
      signJWT sampleConfig (ascii "a") (ascii "bcd") =
        ascii "a" ++ dot :: (ascii "bcd" ++ dot :: sg) ∧
      (dot ∉ ascii "a" → dot ∉ ascii "bcd" →
        AuthorizeJWT sampleConfig 0 (ascii "a" ++ dot :: (ascii "bcd" ++ dot :: sg)) =
            (match jsonUnmarshalClaims (base64Decode (ascii "bcd")).1 with
              | none => some ⟨some sampleConfig.ServerInternalError, 0, false⟩
              | some claims =>
                if claims.ExpirationDate < sub64 0 claims.InterArrivalTime then
                  some ⟨some expiredJwt, 0, false⟩
                else some ⟨none, claims.Uid, claims.Kind⟩) ∧
          (sampleConfig.ServerInternalError.Status ≠ 40002 →
            ∀ r e,
              AuthorizeJWT sampleConfig 0 (ascii "a" ++ dot :: (ascii "bcd" ++ dot :: sg)) =
                some r →
              r.err = some e → e.Status ≠ 40002)) :=
  separator_not_authenticated sampleConfig 0 (ascii "ab") (ascii "cd") (ascii "a") (ascii "bcd")
    (by decide)

/-- C16 (totality).  `AuthorizeJWT` returns a result on every input, key and
clock: no index is out of range.  When the input has two dots,
`strings.Split` gives exactly three parts, and the string re-signed from the
first two splits into exactly three parts whose last one is the recomputed
signature segment. -/
theorem authorize_total (cfg : Config) (now : Int) (s : Str) :
    (∃ r, AuthorizeJWT cfg now s = some r) ∧
      (s.count dot = 2 →
        ∃ part0 part1 part2, splitDot s = [part0, part1, part2] ∧
          (splitDot (signJWT cfg part0 part1)).length = 3 ∧
          (splitDot (signJWT cfg part0 part1))[2]? =
            some (base64Encode (hexEncode (hmacSHA256 cfg.JwtKey (part0 ++ part1))))) := by
  constructor
  · rcases authorize_cases cfg now s with h | h | h | ⟨uid, kind, h⟩
    · exact ⟨_, h⟩
    · exact ⟨_, h⟩
    · exact ⟨_, h⟩
    · exact ⟨_, h⟩
  · intro hc
    obtain ⟨h, p, sg, rfl, hh, hp, hs⟩ := exists_three_segments s hc
    refine ⟨h, p, sg, splitDot_three h p sg hh hp hs, ?_, resigned_segment cfg h p hh hp⟩
    rw [signJWT_split cfg h p hh hp]
    rfl

/-- C17 (the header is not checked).  For every header `h` without a dot,
every claims value `c` with `int64` fields and every clock at which the
expiry condition of the code (`c.exp < now - c.iat`, subtraction in `int64`)
is false, `AuthorizeJWT` accepts `signJWT h (base64 (json c))` and returns
`c.Uid` and `c.Type`.  Two inputs with the same payload segment, on which the
signature check has the same outcome, get the same result whatever their
header segments are. -/
theorem header_not_checked (cfg : Config) (now : Int) (h : Str) (c : Claims)
    (hh : dot ∉ h) (hc : c.InRange)
    (hne : ¬ (c.ExpirationDate < sub64 now c.InterArrivalTime)) :
    (∃ json, jsonMarshalClaims c = some json ∧
        AuthorizeJWT cfg now (signJWT cfg h (base64Encode json)) =
          some ⟨none, c.Uid, c.Kind⟩) ∧
      ∀ h2 p sg sg2 : Str,
        (h ++ dot :: (p ++ dot :: sg)).count dot = 2 →
        (h2 ++ dot :: (p ++ dot :: sg2)).count dot = 2 →
        ((splitDot (signJWT cfg h p))[2]? = some sg ↔
          (splitDot (signJWT cfg h2 p))[2]? = some sg2) →
        AuthorizeJWT cfg now (h ++ dot :: (p ++ dot :: sg)) =
          AuthorizeJWT cfg now (h2 ++ dot :: (p ++ dot :: sg2)) := by
  constructor
  · refine ⟨(jsonMarshalClaims c).getD [], by simp [jsonMarshalClaims], ?_⟩
    rw [authorize_signed cfg now h _ hh (base64Encode_not_mem_dot _), base64Decode_encode,
      unmarshal_marshal c hc.1 hc.2.1 hc.2.2]
    simp only []
    rw [if_neg hne]
  · intro h2 p sg sg2 hc1 hc2 hiff
    rw [authorize_segments cfg now h p sg hc1, authorize_segments cfg now h2 p sg2 hc2]
    by_cases hsig : (splitDot (signJWT cfg h p))[2]? = some sg
    · rw [if_neg (not_not.mpr hsig), if_neg (not_not.mpr (hiff.mp hsig))]
    · rw [if_pos hsig, if_pos (fun e => hsig (hiff.mpr e))]

/-- C17 on the header `x`, which is not the base64 form of any JSON header. -/
theorem header_not_checked_witness :
    (∃ json, jsonMarshalClaims ⟨1700000000, 3600, 42, true⟩ = some json ∧
        AuthorizeJWT sampleConfig 1700000001
            (signJWT sampleConfig (ascii "x") (base64Encode json)) =
          some ⟨none, 42, true⟩) ∧
      ∀ h2 p sg sg2 : Str,
        (ascii "x" ++ dot :: (p ++ dot :: sg)).count dot = 2 →
        (h2 ++ dot :: (p ++ dot :: sg2)).count dot = 2 →
        ((splitDot (signJWT sampleConfig (ascii "x") p))[2]? = some sg ↔
          (splitDot (signJWT sampleConfig h2 p))[2]? = some sg2) →
        AuthorizeJWT sampleConfig 1700000001 (ascii "x" ++ dot :: (p ++ dot :: sg)) =
          AuthorizeJWT sampleConfig 1700000001 (h2 ++ dot :: (p ++ dot :: sg2)) :=
  header_not_checked sampleConfig 1700000001 (ascii "x") ⟨1700000000, 3600, 42, true⟩
    (by decide) ⟨by decide, by decide, by decide⟩ (by decide)

/-- C18 (result shape of `CtrlUserRegister`).  When the registration service
returns an error, `CtrlUserRegister` returns that error with the zero
`RespData`; otherwise it returns a nil error and a response with HttpStatus
200, Status 20000, the success text, and the two tokens of the service with
`Uid` 0.  The `Uid` of the data is 0 in every response that has data. -/
theorem ctrlUserRegister_shape {E : Type}
    (RegisterAccount : Str → Str → Str → Option E × Str × Str) (InfoSuccess : String)
    (name email password : Str) :
    (∀ e accessToken refreshToken,
        RegisterAccount name email password = (some e, accessToken, refreshToken) →
        CtrlUserRegister RegisterAccount InfoSuccess name email password =
          (some e, ⟨0, 0, "", none⟩)) ∧
      (∀ accessToken refreshToken,
        RegisterAccount name email password = (none, accessToken, refreshToken) →
        CtrlUserRegister RegisterAccount InfoSuccess name email password =
          (none, ⟨200, 20000, InfoSuccess, some ⟨accessToken, refreshToken, 0⟩⟩)) ∧
      (∀ d, (CtrlUserRegister RegisterAccount InfoSuccess name email password).2.Data = some d →
        d.Uid = 0) := by
  refine ⟨?_, ?_, ?_⟩
  · intro e a r hreg
    simp [CtrlUserRegister, hreg, RespData.zero]
  · intro a r hreg
    simp [CtrlUserRegister, hreg]
  · intro d hd
    unfold CtrlUserRegister at hd
    rcases hreg : RegisterAccount name email password with ⟨_ | e, a, r⟩
    · rw [hreg] at hd
      simp only [Option.some.injEq] at hd
      rw [← hd]
    · rw [hreg] at hd
      simp [RespData.zero] at hd


end MessageBoard
